import Mathlib

/-!
Verification development for the SAT question-ingestion pipeline
(`backend/app/pipelines/question_ingestion.py`).

The pipeline's text processing is built on Python `re` regular expressions.
We embed the fragment of Python-`re` semantics that the pipeline's concrete
patterns use (character classes, greedy `*` / `+` / `?`, alternation,
capturing groups, multiline anchors `^` / `$`, word boundary, `.` under
DOTALL) as a backtracking matcher over `List Char` that enumerates all
matches of a pattern in Python's backtracking preference order, so that the
head of the enumeration is exactly the match Python's engine returns.
`re.findall` / `re.finditer` / `re.search` / `re.sub` are then the usual
left-to-right non-overlapping scans on top of it.
-/

set_option maxRecDepth 4000

namespace SatIngest

/-- Convert a Lean string literal to the `List Char` representation used
throughout (Python `str` is modelled as `List Char`). -/
def pyStr (s : String) : List Char := s.data

/-- ASCII whitespace recognized by Python `\s` (the inputs in this
development are ASCII, so the Unicode extras of `\s` never arise). -/
def wsChars : List Char := [' ', '\t', '\n', '\r', '\x0b', '\x0c']

/-- Decimal digit characters (`\d`). -/
def digitChars : List Char := pyStr "0123456789"

/-- Lowercase ASCII letters. -/
def lowerChars : List Char := pyStr "abcdefghijklmnopqrstuvwxyz"

/-- Uppercase ASCII letters. -/
def upperChars : List Char := pyStr "ABCDEFGHIJKLMNOPQRSTUVWXYZ"

/-- `[a-zA-Z]`. -/
def letterChars : List Char := lowerChars ++ upperChars

/-- Python `\w` (ASCII): letters, digits and underscore. -/
def wordChars : List Char := letterChars ++ digitChars ++ ['_']

/-- Python `str.strip()` (both-ends whitespace strip, ASCII case). -/
def pyStrip (s : List Char) : List Char :=
  ((s.dropWhile (wsChars.contains ·)).reverse.dropWhile (wsChars.contains ·)).reverse

/-- Python `str.upper()` on a single ASCII char. -/
def upChar (c : Char) : Char := c.toUpper

/-- Python `str.upper()` (ASCII case). -/
def upStr (s : List Char) : List Char := s.map upChar

/-- Numeric value of a decimal digit list, as Python `int()` computes it on a
string of digits (the only shape the pipeline ever feeds to `int()`). -/
def natOfDigits (ds : List Char) : Nat :=
  ds.foldl (fun a c => a * 10 + (c.toNat - '0'.toNat)) 0

/-- Decimal rendering of a natural number (Python `str(n)` / `f"{n}"`). -/
def digitsOfNat (n : Nat) : List Char := (Nat.repr n).data

/-- Python slicing `text[a:b]` on our char-list strings. -/
def pySlice (s : List Char) (a b : Nat) : List Char := (s.take b).drop a

/-- Whether `pat` occurs as a contiguous substring of `s`
(Python `pat in s`). -/
def containsSub (s pat : List Char) : Bool :=
  (List.range (s.length + 1)).any (fun i => (s.drop i).take pat.length = pat)

/-- Regular-expression syntax: the fragment of Python `re` that the
pipeline's patterns use. `cls` is a (non-negated) character class given by
the explicit list of characters it accepts; case-insensitive pieces of a
pattern are transcribed by listing both cases in the class. -/
inductive RE where
  | eps : RE
  | cls (cs : List Char) : RE
  | anyc : RE
  | seq (a b : RE) : RE
  | alt (a b : RE) : RE
  | opt (a : RE) : RE
  | star (a : RE) : RE
  | group (n : Nat) (a : RE) : RE
  | bol : RE
  | eol : RE
  | wb : RE
deriving DecidableEq, Repr

namespace RE

/-- Sequence of a list of regexes. -/
def seqs : List RE → RE
  | [] => .eps
  | [r] => r
  | r :: rs => .seq r (seqs rs)

/-- Literal character. -/
def ch (c : Char) : RE := .cls [c]

/-- Case-sensitive literal string. -/
def str (s : String) : RE := seqs (s.data.map ch)

/-- Case-insensitive literal string (each letter matches either case). -/
def istr (s : String) : RE := seqs (s.data.map (fun c => .cls [c.toLower, c.toUpper]))

/-- Greedy `+`: one or more. -/
def plus (a : RE) : RE := .seq a (.star a)

/-- Number of syntax nodes, used to compute a generous fuel bound. -/
def size : RE → Nat
  | .eps | .cls _ | .anyc | .bol | .eol | .wb => 1
  | .seq a b | .alt a b => size a + size b + 1
  | .opt a | .star a | .group _ a => size a + 1

end RE

/-- Captures: group number paired with the captured characters. Python keeps
the last capture of a group; lookup below returns the first entry, and in
the pipeline's patterns no group captures twice in one match. -/
abbrev Caps := List (Nat × List Char)

/-- One way a regex can match at the current point: consumed characters,
remaining input, captures. -/
abbrev MRes := List Char × List Char × Caps

/-- The character immediately before the current position, given the
character before the region and the characters consumed so far. -/
def lastOr (prev : Option Char) (consumed : List Char) : Option Char :=
  match consumed.getLast? with
  | some c => some c
  | none => prev

/-- Word/non-word transition test for `\b`. -/
def wordish : Option Char → Bool
  | some c => wordChars.contains c
  | none => false

/-- All ways `re` can match a prefix of `s`, in Python's backtracking
preference order (so the head is the match Python returns). `prev` is the
character just before `s` (for `^`, `$`, `\b`); `fuel` bounds recursion
depth and is chosen large enough by `matchAll` below. Anchors are
multiline (`^` after a newline, `$` before one), matching the `re.MULTILINE`
or `(?m)` settings of every anchored pattern in the pipeline; `anyc`
matches any character including newline, matching the only `.` use
(`re.DOTALL`). -/
def mt : Nat → RE → Option Char → List Char → List MRes
  | 0, _, _, _ => []
  | fuel + 1, re, prev, s =>
    match re with
    | .eps => [([], s, [])]
    | .cls cs =>
      match s with
      | [] => []
      | c :: r => if cs.contains c then [([c], r, [])] else []
    | .anyc =>
      match s with
      | [] => []
      | c :: r => [([c], r, [])]
    | .seq a b =>
      (mt fuel a prev s).flatMap fun (ca, ra, ga) =>
        (mt fuel b (lastOr prev ca) ra).map fun (cb, rb, gb) => (ca ++ cb, rb, ga ++ gb)
    | .alt a b => mt fuel a prev s ++ mt fuel b prev s
    | .opt a => mt fuel a prev s ++ [([], s, [])]
    | .star a =>
      ((mt fuel a prev s).flatMap fun (ca, ra, ga) =>
        if ca.isEmpty then []
        else (mt fuel (.star a) (lastOr prev ca) ra).map
          fun (cs, rs, gs) => (ca ++ cs, rs, ga ++ gs)) ++ [([], s, [])]
    | .group n a => (mt fuel a prev s).map fun (c, r, g) => (c, r, (n, c) :: g)
    | .bol => if prev = none ∨ prev = some '\n' then [([], s, [])] else []
    | .eol =>
      match s with
      | [] => [([], s, [])]
      | c :: _ => if c = '\n' then [([], s, [])] else []
    | .wb => if wordish prev ≠ wordish s.head? then [([], s, [])] else []

/-- Fuel large enough for any root-to-leaf recursion path of `mt`: along a
path, between two unfoldings of the same `star` at least one character is
consumed, so depth is bounded by (pattern size) × (input length + 1) plus
the structural descent. -/
def fuelFor (re : RE) (s : List Char) : Nat := (re.size + 4) * (s.length + 4) + 64

/-- All matches of `re` at the current position, preference-ordered. -/
def matchAll (re : RE) (prev : Option Char) (s : List Char) : List MRes :=
  mt (fuelFor re s) re prev s

/-- The match Python's engine returns at the current position, if any. -/
def matchFirst (re : RE) (prev : Option Char) (s : List Char) : Option MRes :=
  (matchAll re prev s).head?

/-- A located match: start position, matched characters, captures. -/
structure Found where
  pos : Nat
  matched : List Char
  caps : Caps
deriving DecidableEq, Repr

/-- Left-to-right non-overlapping scan (`re.finditer` / `re.findall`):
try the earliest position first; after a match resume right past it
(advancing one character past an empty match, as Python does). -/
def scanFrom : Nat → RE → Option Char → List Char → Nat → List Found
  | 0, _, _, _, _ => []
  | fuel + 1, re, prev, s, pos =>
    match matchFirst re prev s with
    | some (c, r, g) =>
      if c.isEmpty then
        { pos := pos, matched := c, caps := g } ::
          (match s with
           | [] => []
           | x :: xs => scanFrom fuel re (some x) xs (pos + 1))
      else
        { pos := pos, matched := c, caps := g } ::
          scanFrom fuel re (lastOr prev c) r (pos + c.length)
    | none =>
      match s with
      | [] => []
      | x :: xs => scanFrom fuel re (some x) xs (pos + 1)

/-- All matches of `re` in `s` (`re.finditer`). -/
def findIter (re : RE) (s : List Char) : List Found :=
  scanFrom (s.length + 1) re none s 0

/-- First match anywhere (`re.search`), as a `Found`. -/
def reSearch (re : RE) (s : List Char) : Option Found :=
  (findIter re s).head?

/-- Capture-group content by number; missing/unmatched groups give `""`
exactly as Python `findall` tuples do. -/
def capStr (g : Caps) (n : Nat) : List Char :=
  (((g.find? (fun p => p.1 = n)).map Prod.snd)).getD []

/-- Replacement templates for `re.sub`: literal text interleaved with
group references (`\1`, `\2`, ...). -/
inductive Tmpl where
  | lit (s : String) : Tmpl
  | grp (n : Nat) : Tmpl
deriving Repr

/-- Instantiate a replacement template with a match's captures. -/
def instTmpl (t : List Tmpl) (g : Caps) : List Char :=
  t.flatMap fun piece =>
    match piece with
    | .lit s => s.data
    | .grp n => capStr g n

/-- `re.sub`: replace every non-overlapping match, scanning left to right
(advancing one character past an empty match, as Python does). -/
def subFrom : Nat → RE → List Tmpl → Option Char → List Char → List Char
  | 0, _, _, _, s => s
  | fuel + 1, re, t, prev, s =>
    match matchFirst re prev s with
    | some (c, r, g) =>
      if c.isEmpty then
        instTmpl t g ++
          (match s with
           | [] => []
           | x :: xs => x :: subFrom fuel re t (some x) xs)
      else
        instTmpl t g ++ subFrom fuel re t (lastOr prev c) r
    | none =>
      match s with
      | [] => []
      | x :: xs => x :: subFrom fuel re t (some x) xs

/-- `re.sub(pattern, repl, s)`. -/
def reSub (re : RE) (t : List Tmpl) (s : List Char) : List Char :=
  subFrom (s.length + 1) re t none s

end SatIngest

namespace SatIngest

open RE in
/-- `\d+` -/
def D1 : RE := RE.plus (.cls digitChars)

/-- `\s*` -/
def WS0 : RE := .star (.cls wsChars)

/-- `\s+` -/
def WS1 : RE := RE.plus (.cls wsChars)

/-- `[a-zA-Z]` -/
def AZ : RE := .cls letterChars

/-- `[a-zA-Z]*` -/
def AZ0 : RE := .star (.cls letterChars)

/-- `\w+` -/
def W1 : RE := RE.plus (.cls wordChars)

/-- the class `[a-zA-Z\+\-\(\)]` -/
def mathCls : List Char := letterChars ++ pyStr "+-()"

/-- `[a-zA-Z\+\-\(\)]*` -/
def MC0 : RE := .star (.cls mathCls)

/-- `[a-zA-Z\+\-\(\)]+` -/
def MC1 : RE := RE.plus (.cls mathCls)

/-- the class `[a-zA-Z\+\-\d]` -/
def radCls : List Char := letterChars ++ pyStr "+-" ++ digitChars

/-- the class `[a-zA-Z\+\-\d\s\(\)]` -/
def radWsCls : List Char := letterChars ++ pyStr "+-" ++ digitChars ++ wsChars ++ pyStr "()"

/-- the class `[a-zA-Z\d\+\-]` -/
def abCls : List Char := letterChars ++ digitChars ++ pyStr "+-"

/-- the class `[a-zA-Z\d\+\-\s]` (= `[a-zA-Z\d\s\+\-]`) -/
def abWsCls : List Char := letterChars ++ digitChars ++ pyStr "+-" ++ wsChars

/-- the class `[a-zA-Z\d\)]` -/
def expBaseCls : List Char := letterChars ++ digitChars ++ [')']

/-- `(19\d\d|20\d\d)` body: a year 1900-2099 (written `19\d{2}|20\d{2}` in
the source). -/
def YEAR : RE :=
  .alt (RE.seqs [RE.str "19", .cls digitChars, .cls digitChars])
       (RE.seqs [RE.str "20", .cls digitChars, .cls digitChars])

open RE Tmpl in
/-- `MATH_FORMATTING_PATTERNS` (question_ingestion.py lines 22-62), in
source order, each with its replacement template. -/
def mathFormattingPatterns : List (RE × List Tmpl) :=
  [ -- (\d+)([a-zA-Z]*)\s*=\s*(\d+)\s*([a-zA-Z\+\-\(\)]*)\s*(\d+)([a-zA-Z\+\-\(\)]*)  ->  \1\2 = \3\4/\5\6
    (seqs [group 1 D1, group 2 AZ0, WS0, ch '=', WS0, group 3 D1, WS0, group 4 MC0,
           WS0, group 5 D1, group 6 MC0],
     [grp 1, grp 2, lit " = ", grp 3, grp 4, lit "/", grp 5, grp 6]),
    -- (\d+)([a-zA-Z]*)\s*/\s*(\d+)([a-zA-Z]*)\s*=\s*(\d+)\s*([a-zA-Z\+\-\(\)]*)\s*(\d+)([a-zA-Z\+\-\(\)]*)  ->  \1\2/\3\4 = \5\6/\7\8
    (seqs [group 1 D1, group 2 AZ0, WS0, ch '/', WS0, group 3 D1, group 4 AZ0, WS0,
           ch '=', WS0, group 5 D1, WS0, group 6 MC0, WS0, group 7 D1, group 8 MC0],
     [grp 1, grp 2, lit "/", grp 3, grp 4, lit " = ", grp 5, grp 6, lit "/", grp 7, grp 8]),
    -- (\d+)\s*([a-zA-Z\+\-\(\)]*)\s*√\s*\(\s*([a-zA-Z\+\-\d\s\(\)]+)\s*\)  ->  \1\2√(\3)
    (seqs [group 1 D1, WS0, group 2 MC0, WS0, ch '√', WS0, ch '(', WS0,
           group 3 (RE.plus (.cls radWsCls)), WS0, ch ')'],
     [grp 1, grp 2, lit "√(", grp 3, lit ")"]),
    -- (\d+)\s*([a-zA-Z\+\-\(\)]*)\s*√\s*([a-zA-Z\+\-\d]+)  ->  \1\2√\3
    (seqs [group 1 D1, WS0, group 2 MC0, WS0, ch '√', WS0, group 3 (RE.plus (.cls radCls))],
     [grp 1, grp 2, lit "√", grp 3]),
    -- =\s*(\d+)\s*([a-zA-Z\+\-\(\)]*)\s*√\s*([a-zA-Z\+\-\d\s\(\)]+)  ->  = \1\2√\3
    (seqs [ch '=', WS0, group 1 D1, WS0, group 2 MC0, WS0, ch '√', WS0,
           group 3 (RE.plus (.cls radWsCls))],
     [lit "= ", grp 1, grp 2, lit "√", grp 3]),
    -- ([a-zA-Z\d\)]+)\s*\^\s*(\d+)  ->  \1^\2
    (seqs [group 1 (RE.plus (.cls expBaseCls)), WS0, ch '^', WS0, group 2 D1],
     [grp 1, lit "^", grp 2]),
    -- ([a-zA-Z\d\)]+)\s*\*\*\s*(\d+)  ->  \1^\2
    (seqs [group 1 (RE.plus (.cls expBaseCls)), WS0, ch '*', ch '*', WS0, group 2 D1],
     [grp 1, lit "^", grp 2]),
    -- ([a-zA-Z\d\)]+)\s*(\d+)\s*([a-zA-Z\+\-\(\)]*)  ->  \1^\2\3
    (seqs [group 1 (RE.plus (.cls expBaseCls)), WS0, group 2 D1, WS0, group 3 MC0],
     [grp 1, lit "^", grp 2, grp 3]),
    -- (\w+)\s*=\s*(\d+)\s*([a-zA-Z\+\-\(\)]*)\s*(\d+)  ->  \1 = \2\3 + \4
    (seqs [group 1 W1, WS0, ch '=', WS0, group 2 D1, WS0, group 3 MC0, WS0, group 4 D1],
     [grp 1, lit " = ", grp 2, grp 3, lit " + ", grp 4]),
    -- (\w+)\s*=\s*(\d+)\s*([a-zA-Z\+\-\(\)]*)\s*([a-zA-Z\+\-\(\)]+)  ->  \1 = \2\3\4
    (seqs [group 1 W1, WS0, ch '=', WS0, group 2 D1, WS0, group 3 MC0, WS0, group 4 MC1],
     [grp 1, lit " = ", grp 2, grp 3, grp 4]),
    -- (\d+)\s*x\s*/\s*(\d+)\s*y  ->  \1x/\2y
    (seqs [group 1 D1, WS0, ch 'x', WS0, ch '/', WS0, group 2 D1, WS0, ch 'y'],
     [grp 1, lit "x/", grp 2, lit "y"]),
    -- (\d+)\s*x\s*=\s*(\d+)\s*([a-zA-Z\+\-\(\)]*)\s*(\d+)\s*([a-zA-Z\+\-\(\)]*)  ->  \1x = \2\3\4\5
    (seqs [group 1 D1, WS0, ch 'x', WS0, ch '=', WS0, group 2 D1, WS0, group 3 MC0,
           WS0, group 4 D1, WS0, group 5 MC0],
     [grp 1, lit "x = ", grp 2, grp 3, grp 4, grp 5]),
    -- (\d+)\s*\+\s*(\d+)  ->  \1 + \2
    (seqs [group 1 D1, WS0, ch '+', WS0, group 2 D1], [grp 1, lit " + ", grp 2]),
    -- (\d+)\s*\-\s*(\d+)  ->  \1 - \2
    (seqs [group 1 D1, WS0, ch '-', WS0, group 2 D1], [grp 1, lit " - ", grp 2]),
    -- (\d+)\s*\*\s*(\d+)  ->  \1 × \2
    (seqs [group 1 D1, WS0, ch '*', WS0, group 2 D1], [grp 1, lit " × ", grp 2]),
    -- (\d+)\s*x\s*(\d+)  ->  \1x\2
    (seqs [group 1 D1, WS0, ch 'x', WS0, group 2 D1], [grp 1, lit "x", grp 2]),
    -- (\w+)\s*\(\s*([a-zA-Z\d\+\-\s]+)\s*\)  ->  \1(\2)
    (seqs [group 1 W1, WS0, ch '(', WS0, group 2 (RE.plus (.cls abWsCls)), WS0, ch ')'],
     [grp 1, lit "(", grp 2, lit ")"]),
    -- (\w+)\s*≤\s*(\d+)  ->  \1 ≤ \2
    (seqs [group 1 W1, WS0, ch '≤', WS0, group 2 D1], [grp 1, lit " ≤ ", grp 2]),
    -- (\w+)\s*≥\s*(\d+)  ->  \1 ≥ \2
    (seqs [group 1 W1, WS0, ch '≥', WS0, group 2 D1], [grp 1, lit " ≥ ", grp 2]),
    -- (\w+)\s*<\s*(\d+)  ->  \1 < \2
    (seqs [group 1 W1, WS0, ch '<', WS0, group 2 D1], [grp 1, lit " < ", grp 2]),
    -- (\w+)\s*>\s*(\d+)  ->  \1 > \2
    (seqs [group 1 W1, WS0, ch '>', WS0, group 2 D1], [grp 1, lit " > ", grp 2]),
    -- \|\s*([a-zA-Z\d\+\-\s]+)\s*\|  ->  |\1|
    (seqs [ch '|', WS0, group 1 (RE.plus (.cls abWsCls)), WS0, ch '|'],
     [lit "|", grp 1, lit "|"]) ]

open RE Tmpl in
/-- The `fixes` list of `fix_common_sat_math_patterns`
(question_ingestion.py lines 134-190), in source order. -/
def satFixPatterns : List (RE × List Tmpl) :=
  [ -- (\d+)([a-zA-Z])\s*=\s*(\d+)\s*([a-zA-Z])\s*\+\s*(\d+)\s*(\d+)([a-zA-Z])  ->  \1\2 = \3\4 + \5/\6\7
    (seqs [group 1 D1, group 2 AZ, WS0, ch '=', WS0, group 3 D1, WS0, group 4 AZ,
           WS0, ch '+', WS0, group 5 D1, WS0, group 6 D1, group 7 AZ],
     [grp 1, grp 2, lit " = ", grp 3, grp 4, lit " + ", grp 5, lit "/", grp 6, grp 7]),
    -- (\d+)([a-zA-Z])\s*=\s*(\d+)\s*([a-zA-Z])\s*\-\s*(\d+)\s*(\d+)([a-zA-Z])  ->  \1\2 = \3\4 - \5/\6\7
    (seqs [group 1 D1, group 2 AZ, WS0, ch '=', WS0, group 3 D1, WS0, group 4 AZ,
           WS0, ch '-', WS0, group 5 D1, WS0, group 6 D1, group 7 AZ],
     [grp 1, grp 2, lit " = ", grp 3, grp 4, lit " - ", grp 5, lit "/", grp 6, grp 7]),
    -- (\d+)\s*√\s*\(\s*([a-zA-Z\d\s\+\-]+)\s*\)  ->  \1√(\2)
    (seqs [group 1 D1, WS0, ch '√', WS0, ch '(', WS0, group 2 (RE.plus (.cls abWsCls)),
           WS0, ch ')'],
     [grp 1, lit "√(", grp 2, lit ")"]),
    -- (\d+)\s*√\s*([a-zA-Z\d]+)  ->  \1√\2
    (seqs [group 1 D1, WS0, ch '√', WS0, group 2 (RE.plus (.cls (letterChars ++ digitChars)))],
     [grp 1, lit "√", grp 2]),
    -- ([a-zA-Z])\s*2\b  ->  \1²
    (seqs [group 1 AZ, WS0, ch '2', wb], [grp 1, lit "²"]),
    -- ([a-zA-Z])\s*3\b  ->  \1³
    (seqs [group 1 AZ, WS0, ch '3', wb], [grp 1, lit "³"]),
    -- ([a-zA-Z])\s*4\b  ->  \1⁴
    (seqs [group 1 AZ, WS0, ch '4', wb], [grp 1, lit "⁴"]),
    -- ([a-zA-Z])\s*\^\s*(\d+)  ->  \1^\2
    (seqs [group 1 AZ, WS0, ch '^', WS0, group 2 D1], [grp 1, lit "^", grp 2]),
    -- ([a-zA-Z])\s*\*\*\s*(\d+)  ->  \1^\2
    (seqs [group 1 AZ, WS0, ch '*', ch '*', WS0, group 2 D1], [grp 1, lit "^", grp 2]),
    -- (\d+)\s*over\s*(\d+)  ->  \1/\2
    (seqs [group 1 D1, WS0, str "over", WS0, group 2 D1], [grp 1, lit "/", grp 2]),
    -- (\d+)\s*divided\s*by\s*(\d+)  ->  \1/\2
    (seqs [group 1 D1, WS0, str "divided", WS0, str "by", WS0, group 2 D1],
     [grp 1, lit "/", grp 2]),
    -- (\d+)\s*percent  ->  \1%
    (seqs [group 1 D1, WS0, str "percent"], [grp 1, lit "%"]),
    -- (\d+)\s*%  ->  \1%
    (seqs [group 1 D1, WS0, ch '%'], [grp 1, lit "%"]),
    -- \s*×\s*  ->  " × "
    (seqs [WS0, ch '×', WS0], [lit " × "]),
    -- \s*÷\s*  ->  " ÷ "
    (seqs [WS0, ch '÷', WS0], [lit " ÷ "]),
    -- \s*±\s*  ->  " ± "
    (seqs [WS0, ch '±', WS0], [lit " ± "]),
    -- (\d+)\s*degrees?  ->  \1°
    (seqs [group 1 D1, WS0, str "degree", opt (ch 's')], [grp 1, lit "°"]),
    -- (\d+)\s*°  ->  \1°
    (seqs [group 1 D1, WS0, ch '°'], [grp 1, lit "°"]),
    -- \(\s*([a-zA-Z\d\+\-]+)\s*,\s*([a-zA-Z\d\+\-]+)\s*\)  ->  (\1, \2)
    (seqs [ch '(', WS0, group 1 (RE.plus (.cls abCls)), WS0, ch ',', WS0,
           group 2 (RE.plus (.cls abCls)), WS0, ch ')'],
     [lit "(", grp 1, lit ", ", grp 2, lit ")"]),
    -- \[\s*([a-zA-Z\d\+\-]+)\s*,\s*([a-zA-Z\d\+\-]+)\s*\]  ->  [\1, \2]
    (seqs [ch '[', WS0, group 1 (RE.plus (.cls abCls)), WS0, ch ',', WS0,
           group 2 (RE.plus (.cls abCls)), WS0, ch ']'],
     [lit "[", grp 1, lit ", ", grp 2, lit "]"]),
    -- \(\s*([a-zA-Z\d\+\-]+)\s*,\s*([a-zA-Z\d\+\-]+)\s*\)  ->  (\1, \2)   (repeated in source)
    (seqs [ch '(', WS0, group 1 (RE.plus (.cls abCls)), WS0, ch ',', WS0,
           group 2 (RE.plus (.cls abCls)), WS0, ch ')'],
     [lit "(", grp 1, lit ", ", grp 2, lit ")"]),
    -- \bpi\b  ->  π
    (seqs [wb, str "pi", wb], [lit "π"]),
    -- \bPi\b  ->  π
    (seqs [wb, str "Pi", wb], [lit "π"]),
    -- \binfinity\b  ->  ∞
    (seqs [wb, str "infinity", wb], [lit "∞"]),
    -- \bINFINITY\b  ->  ∞
    (seqs [wb, str "INFINITY", wb], [lit "∞"]),
    -- \bsin\s*\(\s*([a-zA-Z\d\+\-]+)\s*\)  ->  sin(\1)
    (seqs [wb, str "sin", WS0, ch '(', WS0, group 1 (RE.plus (.cls abCls)), WS0, ch ')'],
     [lit "sin(", grp 1, lit ")"]),
    -- \bcos\s*\(\s*([a-zA-Z\d\+\-]+)\s*\)  ->  cos(\1)
    (seqs [wb, str "cos", WS0, ch '(', WS0, group 1 (RE.plus (.cls abCls)), WS0, ch ')'],
     [lit "cos(", grp 1, lit ")"]),
    -- \btan\s*\(\s*([a-zA-Z\d\+\-]+)\s*\)  ->  tan(\1)
    (seqs [wb, str "tan", WS0, ch '(', WS0, group 1 (RE.plus (.cls abCls)), WS0, ch ')'],
     [lit "tan(", grp 1, lit ")"]),
    -- \blog\s*\(\s*([a-zA-Z\d\+\-]+)\s*\)  ->  log(\1)
    (seqs [wb, str "log", WS0, ch '(', WS0, group 1 (RE.plus (.cls abCls)), WS0, ch ')'],
     [lit "log(", grp 1, lit ")"]),
    -- \bln\s*\(\s*([a-zA-Z\d\+\-]+)\s*\)  ->  ln(\1)
    (seqs [wb, str "ln", WS0, ch '(', WS0, group 1 (RE.plus (.cls abCls)), WS0, ch ')'],
     [lit "ln(", grp 1, lit ")"]) ]

open RE Tmpl in
/-- The `year_fixes` list of `fix_year_patterns`
(question_ingestion.py lines 219-241), in source order. -/
def yearFixPatterns : List (RE × List Tmpl) :=
  [ -- ([a-zA-Z])\^(19\d\d|20\d\d)([a-zA-Z])  ->  \1 \2 \3
    (seqs [group 1 AZ, ch '^', group 2 YEAR, group 3 AZ], [grp 1, lit " ", grp 2, lit " ", grp 3]),
    -- ([a-zA-Z])\^(19\d\d|20\d\d)\b  ->  \1 \2
    (seqs [group 1 AZ, ch '^', group 2 YEAR, wb], [grp 1, lit " ", grp 2]),
    -- ([a-zA-Z])(19\d\d|20\d\d)([a-zA-Z])  ->  \1 \2 \3
    (seqs [group 1 AZ, group 2 YEAR, group 3 AZ], [grp 1, lit " ", grp 2, lit " ", grp 3]),
    -- ([a-zA-Z])\^(19\d\d|20\d\d)s\b  ->  \1 \2s
    (seqs [group 1 AZ, ch '^', group 2 YEAR, ch 's', wb], [grp 1, lit " ", grp 2, lit "s"]),
    -- ([a-zA-Z])\^(19\d\d|20\d\d)([,\.\!\?\;\:])  ->  \1 \2\3
    (seqs [group 1 AZ, ch '^', group 2 YEAR, group 3 (.cls (pyStr ",.!?;:"))],
     [grp 1, lit " ", grp 2, grp 3]),
    -- (the|from|in|since|after|before|during|by)\^(19\d\d|20\d\d)s?\b  ->  \1 \2s
    (seqs [group 1 (alt (str "the") (alt (str "from") (alt (str "in") (alt (str "since")
             (alt (str "after") (alt (str "before") (alt (str "during") (str "by")))))))),
           ch '^', group 2 YEAR, opt (ch 's'), wb],
     [grp 1, lit " ", grp 2, lit "s"]),
    -- ([A-Z][a-z]+)\-(\d+)\^(\d+)  ->  \1-\2\3
    (seqs [group 1 (RE.seq (.cls upperChars) (RE.plus (.cls lowerChars))), ch '-',
           group 2 D1, ch '^', group 3 D1],
     [grp 1, lit "-", grp 2, grp 3]),
    -- ([A-Z][a-zA-Z]+)\^(19\d\d|20\d\d)  ->  \1 \2
    (seqs [group 1 (RE.seq (.cls upperChars) (RE.plus (.cls letterChars))), ch '^',
           group 2 YEAR],
     [grp 1, lit " ", grp 2]) ]

/-- Apply an ordered list of (pattern, replacement) rewrites sequentially
(the shared loop shape of the three repair passes; the source's
`except re.error` guard can never fire on these static patterns). -/
def applySubs (ps : List (RE × List Tmpl)) (text : List Char) : List Char :=
  ps.foldl (fun t p => reSub p.1 p.2 t) text

/-- `fix_common_sat_math_patterns` (question_ingestion.py lines 123-199). -/
def fixCommonSatMathPatterns (text : List Char) : List Char :=
  applySubs satFixPatterns text

/-- `fix_year_patterns` (question_ingestion.py lines 201-250):
`if not text: return text`, then the ordered rewrites. -/
def fixYearPatterns (text : List Char) : List Char :=
  if text.isEmpty then text else applySubs yearFixPatterns text

/-- `preprocess_math_formatting` (question_ingestion.py lines 84-121):
`if not text: return text`; apply `MATH_FORMATTING_PATTERNS` in order, then
`fix_common_sat_math_patterns`, then `fix_year_patterns`. -/
def preprocessMathFormatting (text : List Char) : List Char :=
  if text.isEmpty then text
  else fixYearPatterns (fixCommonSatMathPatterns (applySubs mathFormattingPatterns text))

end SatIngest

namespace SatIngest

open RE in
/-- The eight answer-key patterns of `parse_answer_key`
(question_ingestion.py lines 336-345), in source order. They are compiled
with `re.IGNORECASE | re.MULTILINE`: `[A-D]` therefore also matches
lowercase letters (listed in the classes), and `$` is multiline. -/
def answerKeyPatterns : List RE :=
  [ -- (\d+)\.?\s*([A-D])
    seqs [group 1 D1, opt (ch '.'), WS0, group 2 (.cls (pyStr "ABCDabcd"))],
    -- Question\s*(\d+)[:.]?\s*([A-D])
    seqs [istr "Question", WS0, group 1 D1, opt (.cls (pyStr ":.")), WS0,
          group 2 (.cls (pyStr "ABCDabcd"))],
    -- (\d+)\)\s*([A-D])
    seqs [group 1 D1, ch ')', WS0, group 2 (.cls (pyStr "ABCDabcd"))],
    -- (\d+)\s*-\s*([A-D])
    seqs [group 1 D1, WS0, ch '-', WS0, group 2 (.cls (pyStr "ABCDabcd"))],
    -- (\d+)\s*:\s*([A-D])
    seqs [group 1 D1, WS0, ch ':', WS0, group 2 (.cls (pyStr "ABCDabcd"))],
    -- (\d+)\s+([A-D])\s
    seqs [group 1 D1, WS1, group 2 (.cls (pyStr "ABCDabcd")), .cls wsChars],
    -- (\d+)\s+([A-D])$
    seqs [group 1 D1, WS1, group 2 (.cls (pyStr "ABCDabcd")), eol],
    -- (\d+)\s+([A-D])[,.\s]
    seqs [group 1 D1, WS1, group 2 (.cls (pyStr "ABCDabcd")), .cls ([',', '.'] ++ wsChars)] ]

open RE in
/-- The tabular-layout pattern of the secondary pass
(question_ingestion.py line 372), compiled with `re.IGNORECASE`:
`(\d+)\s*([A-D])\s*(?:\d+\s*[A-D]\s*)*`. -/
def tabularPattern : RE :=
  seqs [group 1 D1, WS0, group 2 (.cls (pyStr "ABCDabcd")), WS0,
        star (seqs [D1, WS0, .cls (pyStr "ABCDabcd"), WS0])]

/-- The (question number, answer letter) pairs one pattern contributes, in
match order: `int(match[0])` (which would raise and skip the pair only on
an empty capture) and `match[1].upper()`. -/
def pairsOfPattern (p : RE) (text : List Char) : List (Nat × List Char) :=
  (findIter p text).filterMap fun f =>
    match capStr f.caps 1 with
    | [] => none
    | ds => some (natOfDigits ds, upStr (capStr f.caps 2))

/-- All matches across all eight patterns, in pattern order then
first-occurrence order (the `all_matches` list of `parse_answer_key`). -/
def collectedPairs (text : List Char) : List (Nat × List Char) :=
  answerKeyPatterns.flatMap (fun p => pairsOfPattern p text)

/-- Lookup in the answer-key association list (Python `dict` read). -/
def akLookup (m : List (Nat × List Char)) (n : Nat) : Option (List Char) :=
  (m.find? (fun pr => pr.1 = n)).map Prod.snd

/-- Add a pair only if its question number is not already present (the
`if question_num not in ...` guard of both passes). -/
def addIfMissing (m : List (Nat × List Char)) (pr : Nat × List Char) : List (Nat × List Char) :=
  if (akLookup m pr.1).isSome then m else m ++ [pr]

/-- The answer key after the primary pass: first-found-wins deduplication
of `collectedPairs`. -/
def primaryAnswerKey (text : List Char) : List (Nat × List Char) :=
  (collectedPairs text).foldl addIfMissing []

/-- `parse_answer_key`'s core (question_ingestion.py lines 336-382) on the
concatenated answer text: primary pass, then — only if fewer than 10
entries were found — the tabular pass, which adds missing numbers only. -/
def parseAnswerKey (text : List Char) : List (Nat × List Char) :=
  let primary := primaryAnswerKey text
  if primary.length < 10 then
    (pairsOfPattern tabularPattern text).foldl addIfMissing primary
  else primary

open RE in
/-- The four question-boundary patterns (question_ingestion.py lines
468-473), in source order, each with `(?m)`:
`^(\d+)\.?\s+`, `^\s*(\d+)\.?\s+`, `^Question\s+(\d+)[:.]?\s+`,
`^Q\s*(\d+)[:.]?\s+`. The identical list appears again in
`extract_question_number` (lines 842-847). -/
def questionBoundaryPatterns : List RE :=
  [ seqs [bol, group 1 D1, opt (ch '.'), WS1],
    seqs [bol, WS0, group 1 D1, opt (ch '.'), WS1],
    seqs [bol, str "Question", WS1, group 1 D1, opt (.cls (pyStr ":.")), WS1],
    seqs [bol, ch 'Q', WS0, group 1 D1, opt (.cls (pyStr ":.")), WS1] ]

/-- Stable insertion of a number into a sorted list (after equal keys). -/
def insertSorted (x : Nat) : List Nat → List Nat
  | [] => [x]
  | y :: ys => if y ≤ x then y :: insertSorted x ys else x :: y :: ys

/-- Stable sort of match start positions (`sorted(..., key=m.start())`). -/
def sortStarts (l : List Nat) : List Nat := l.foldl (fun acc x => insertSorted x acc) []

/-- All boundary-match start positions across the four patterns, sorted by
position (the `all_matches` list of `split_by_question_numbers`). -/
def allBoundaryStarts (text : List Char) : List Nat :=
  sortStarts ((questionBoundaryPatterns.flatMap (fun p => findIter p text)).map Found.pos)

/-- The duplicate-suppression loop of `split_by_question_numbers`
(lines 486-491): starting from `last_pos = -1`, keep a match only if its
start exceeds the last kept start by more than 10. -/
def uniqueStarts (text : List Char) : List Nat :=
  ((allBoundaryStarts text).foldl
    (fun (acc : List Nat × Int) (st : Nat) =>
      if (st : Int) > acc.2 + 10 then (acc.1 ++ [st], (st : Int)) else acc)
    ([], -1)).1

/-- Spans `(start, end)` for each kept boundary: up to the next kept
boundary, or to the end of the text for the last one. -/
def chunkSpans : List Nat → Nat → List (Nat × Nat)
  | [], _ => []
  | [a], n => [(a, n)]
  | a :: b :: rest, n => (a, b) :: chunkSpans (b :: rest) n

open RE in
/-- The choice-marker pattern `[A-D][\)\.]\s+` of `is_valid_question_chunk`
(line 524); case sensitive. -/
def choiceMarkerRe : RE := seqs [.cls (pyStr "ABCD"), .cls (pyStr ")."), WS1]

/-- Number of choice markers found in a chunk (`re.findall` count). -/
def markerCount (chunk : List Char) : Nat := (findIter choiceMarkerRe chunk).length

open RE in
/-- The eleven exclusion patterns of `is_valid_question_chunk`
(lines 531-543), each with inline `(?i)` (fully case-insensitive). -/
def exclusionPatterns : List RE :=
  [ seqs [istr "direction", opt (istr "s"), .cls (pyStr ":.")],   -- directions?[:.]
    seqs [istr "instruction", opt (istr "s"), .cls (pyStr ":.")], -- instructions?[:.]
    seqs [istr "section", WS1, D1],                               -- section\s+\d+
    seqs [istr "module", WS1, D1],                                -- module\s+\d+
    seqs [istr "time", WS0, ch ':', WS0, D1],                     -- time\s*:\s*\d+
    seqs [istr "calculator", WS1,                                 -- calculator\s+(allowed|not\s+allowed)
          group 1 (alt (istr "allowed") (seqs [istr "not", WS1, istr "allowed"]))],
    seqs [istr "reading", WS1, istr "and", WS1, istr "writing"],  -- reading\s+and\s+writing
    seqs [istr "math", WS1, istr "section"],                      -- math\s+section
    seqs [istr "answer", WS1, istr "sheet"],                      -- answer\s+sheet
    seqs [istr "sample", WS1, istr "question", opt (istr "s")],   -- sample\s+questions?
    seqs [istr "practice", WS1, istr "test"] ]                    -- practice\s+test

/-- `is_valid_question_chunk` (question_ingestion.py lines 515-549):
reject when shorter than 100 characters; reject when fewer than 3 choice
markers; reject when any exclusion pattern matches within the first 200
characters; otherwise accept. -/
def isValidQuestionChunk (chunk : List Char) : Bool :=
  if chunk.length < 100 then false
  else if markerCount chunk < 3 then false
  else if exclusionPatterns.any (fun p => (reSearch p (chunk.take 200)).isSome) then false
  else true

/-- `split_by_question_numbers` (question_ingestion.py lines 463-513). -/
def splitByQuestionNumbers (text : List Char) : List (List Char) :=
  let u := uniqueStarts text
  if u.length < 1 then []
  else ((chunkSpans u text.length).map
          (fun sp => pyStrip (pySlice text sp.1 sp.2))).filter isValidQuestionChunk

/-- `split_by_content` (question_ingestion.py lines 551-574), with the
external `RecursiveCharacterTextSplitter` (a langchain collaborator, not
part of this repository) abstracted as the parameter `fb`: its pieces are
filtered through the same validation predicate. -/
def splitByContentWith (fb : List Char → List (List Char)) (text : List Char) :
    List (List Char) :=
  (fb text).filter isValidQuestionChunk

/-- The per-page chunking of `split_pages` (lines 420-437): boundary-based
splitting, falling back to content-based splitting only when the former
yields no chunks. -/
def pageChunksWith (fb : List Char → List (List Char)) (page : List Char) :
    List (List Char) :=
  let q := splitByQuestionNumbers page
  if q.isEmpty then splitByContentWith fb page else q

/-- `re.search` for one boundary pattern, returning the number in capture
group 1 (`int(match.group(1))`; the capture is always a nonempty digit
string, so the source's `except: continue` can never fire). -/
def searchCapNat (p : RE) (text : List Char) : Option Nat :=
  (reSearch p text).map (fun f => natOfDigits (capStr f.caps 1))

/-- `extract_question_number` (question_ingestion.py lines 837-857): try
the four boundary patterns in order, returning the first pattern's search
result; `None` when none matches. -/
def extractQuestionNumber (text : List Char) : Option Nat :=
  questionBoundaryPatterns.foldl
    (fun acc p => match acc with
      | some n => some n
      | none => searchCapNat p text) none

end SatIngest

namespace SatIngest

/-- Python/JSON values as they flow through the record dictionaries
(`record_dict` is `json.loads` output: null, strings, ints, bools,
objects, arrays). -/
inductive PyVal where
  | pynone : PyVal
  | pstr (s : List Char) : PyVal
  | pint (n : Int) : PyVal
  | pbool (b : Bool) : PyVal
  | pdict (kvs : List (List Char × PyVal)) : PyVal
  | plist (xs : List PyVal) : PyVal
deriving Repr

/-- A Python `dict` with string keys, as an insertion-ordered association
list with unique keys. -/
abbrev PyDict := List (List Char × PyVal)

/-- Python `d[k]` read (`None`-free): first entry with the key. -/
def dGet : PyDict → List Char → Option PyVal
  | [], _ => none
  | (k', v) :: rest, k => if k' = k then some v else dGet rest k

/-- Python `d.get(k, default)`. -/
def dGetD (d : PyDict) (k : List Char) (dflt : PyVal) : PyVal := (dGet d k).getD dflt

/-- Python `d[k] = v`: replace in place, else append (insertion order kept). -/
def dSet : PyDict → List Char → PyVal → PyDict
  | [], k, v => [(k, v)]
  | (k', v') :: rest, k, v =>
    if k' = k then (k, v) :: rest else (k', v') :: dSet rest k v

/-- The `choices` handling block of `validate_and_clean_record`
(question_ingestion.py lines 817-833): `None` stays `None`; a string is
fed to `json.loads` (exception → `None`) and the parse result is kept
as-is; a dict is kept only when it contains all four expected keys
`A`, `B`, `C`, `D` (note: `all(key in choices ...)` — presence only, so
extra keys pass); anything else becomes `None`. -/
def cleanChoicesVal (jsonLoads : List Char → Option PyVal) (v : PyVal) : PyVal :=
  match v with
  | .pynone => .pynone
  | .pstr s =>
    match jsonLoads s with
    | some w => w
    | none => .pynone
  | .pdict kvs =>
    if ([pyStr "A", pyStr "B", pyStr "C", pyStr "D"]).all
         (fun key => kvs.any (fun p => p.1 = key))
    then .pdict kvs else .pynone
  | _ => .pynone

/-- `validate_and_clean_record` (question_ingestion.py lines 803-835).
`jsonLoads` abstracts the Python-stdlib `json.loads` used on a string
`choices` value (returning `none` models the exception caught by the bare
`except`). -/
def validateAndCleanRecord (jsonLoads : List Char → Option PyVal)
    (d0 : PyDict) (uid : List Char) : PyDict :=
  let d := dSet d0 (pyStr "id") (.pstr uid)
  let d := dSet d (pyStr "module") (dGetD d (pyStr "module") (.pint 1))
  let d := dSet d (pyStr "question_number") (dGetD d (pyStr "question_number") (.pint 1))
  let d := dSet d (pyStr "section") (dGetD d (pyStr "section") (.pstr (pyStr "Unknown")))
  let d := dSet d (pyStr "type") (dGetD d (pyStr "type") (.pstr (pyStr "MC")))
  let d := dSet d (pyStr "category") (dGetD d (pyStr "category") .pynone)
  let d := dSet d (pyStr "stimulus") (dGetD d (pyStr "stimulus") .pynone)
  let d := dSet d (pyStr "correct") (dGetD d (pyStr "correct") .pynone)
  dSet d (pyStr "choices") (cleanChoicesVal jsonLoads (dGetD d (pyStr "choices") .pynone))

/-- The structured record (`QARecord`, question_ingestion.py lines 69-82).
The Python field `section` is named `sect` here because `section` is a Lean
keyword; all other field names match the source. -/
structure QARecord where
  id : List Char
  module : Int
  question_number : Int
  sect : List Char
  type : List Char
  category : Option (List Char)
  stimulus : List Char
  choices : Option (List (List Char × List Char))
  correct : Option (List Char)
deriving DecidableEq, Repr

/-- Pydantic validation of a required `str` field (with the model's
`str_strip_whitespace = True` config): accepts exactly strings. -/
def asStr : PyVal → Option (List Char)
  | .pstr s => some (pyStrip s)
  | _ => none

/-- Signed-decimal reading of a string, for pydantic's lax coercion of
numeric strings to `int`. -/
def intOfChars : List Char → Option Int
  | [] => none
  | '-' :: ds => if ds ≠ [] ∧ ds.all (digitChars.contains ·)
                 then some (-(natOfDigits ds : Int)) else none
  | ds => if ds.all (digitChars.contains ·) then some (natOfDigits ds : Int) else none

/-- Pydantic validation of a required `int` field (lax mode: `int` values,
and numeric strings coerced). -/
def asInt : PyVal → Option Int
  | .pint n => some n
  | .pstr s => intOfChars s
  | _ => none

/-- Pydantic validation of an `Optional[str]` field. -/
def asOptStr : PyVal → Option (Option (List Char))
  | .pynone => some none
  | .pstr s => some (some (pyStrip s))
  | _ => none

/-- Pydantic validation of the `Optional[Dict[str, str]]` field `choices`:
`None`, or an object all of whose values are strings. -/
def asChoices : PyVal → Option (Option (List (List Char × List Char)))
  | .pynone => some none
  | .pdict kvs =>
    if kvs.all (fun p => match p.2 with | .pstr _ => true | _ => false)
    then some (some (kvs.map (fun p =>
      (p.1, match p.2 with | .pstr s => pyStrip s | _ => []))))
    else none
  | _ => none

/-- `QARecord(**record_dict)`: pydantic construction, `none` on a
`ValidationError` (missing key = the `None` the validate step installs). -/
def qarecordOfDict (d : PyDict) : Option QARecord := do
  let id ← asStr (dGetD d (pyStr "id") .pynone)
  let module ← asInt (dGetD d (pyStr "module") .pynone)
  let qn ← asInt (dGetD d (pyStr "question_number") .pynone)
  let sect ← asStr (dGetD d (pyStr "section") .pynone)
  let ty ← asStr (dGetD d (pyStr "type") .pynone)
  let category ← asOptStr (dGetD d (pyStr "category") .pynone)
  let stimulus ← asStr (dGetD d (pyStr "stimulus") .pynone)
  let choices ← asChoices (dGetD d (pyStr "choices") .pynone)
  let correct ← asOptStr (dGetD d (pyStr "correct") .pynone)
  pure { id := id, module := module, question_number := qn, sect := sect,
         type := ty, category := category, stimulus := stimulus,
         choices := choices, correct := correct }

/-- Python `str.replace(pat, rep)` (all non-overlapping occurrences, left
to right); `pat` is never empty at the call sites. -/
def strReplaceFrom : Nat → List Char → List Char → List Char → List Char
  | 0, _, _, s => s
  | _ + 1, _, _, [] => []
  | fuel + 1, pat, rep, s@(c :: rest) =>
    if s.take pat.length = pat ∧ pat ≠ []
    then rep ++ strReplaceFrom fuel pat rep (s.drop pat.length)
    else c :: strReplaceFrom fuel pat rep rest

/-- Python `s.replace(pat, rep)`. -/
def strReplace (s pat rep : List Char) : List Char :=
  strReplaceFrom (s.length + 1) pat rep s

/-- `clean_json_string` (question_ingestion.py lines 786-801): the seven
`str.replace` calls in source order (five replace a two-character escape
sequence with itself and are identities; the remaining two collapse
double backslashes and unescape forward slashes). -/
def cleanJsonString (s : List Char) : List Char :=
  let s := strReplace s (pyStr "\\n") (pyStr "\\n")
  let s := strReplace s (pyStr "\\\"") (pyStr "\\\"")
  let s := strReplace s (pyStr "\\\\") (pyStr "\\")
  let s := strReplace s (pyStr "\\/") (pyStr "/")
  let s := strReplace s (pyStr "\\u") (pyStr "\\u")
  let s := strReplace s (pyStr "\\t") (pyStr "\\t")
  strReplace s (pyStr "\\r") (pyStr "\\r")

/-- `RATE_LIMIT_DELAY = 4.5` (question_ingestion.py line 65); seconds are
modelled as rationals. -/
def RATE_LIMIT_DELAY : ℚ := 4.5

/-- The rate-limiting wait at the top of `llm_extract` (lines 585-590):
sleep for the remaining difference when the elapsed time since the last
request is below the delay, else not at all. -/
def rateSleep (last now : ℚ) : ℚ :=
  if now - last < RATE_LIMIT_DELAY then RATE_LIMIT_DELAY - (now - last) else 0

/-- The pipeline's `GraphState` (question_ingestion.py lines 253-261), with
page objects as their page text and the process-global `last_request_time`
(line 66) folded in as a field so the state machine is a pure function. -/
structure PState where
  rawPages : List (List Char)
  answerPages : List (List Char)
  chunks : List (List Char)
  parsed : List QARecord
  errors : List (List Char)
  currentChunkIndex : Nat
  parsingStatus : List Char
  answerKey : List (Nat × List Char)
  lastRequestTime : ℚ
deriving Repr

/-- The generated identifier `f"SAT-Q{index+1:03d}"` (line 617). -/
def uidFor (idx : Nat) : List Char :=
  pyStr "SAT-Q" ++
    (List.replicate (3 - (digitsOfNat (idx + 1)).length) '0' ++ digitsOfNat (idx + 1))

open RE in
/-- `re.search(r'\x7b.*\x7d', response_content, re.DOTALL)` (line 735):
first `{`, greedily to the last `}`. -/
def jsonObjRe : RE := seqs [ch '\x7b', star anyc, ch '\x7d']

/-- Locate the JSON object substring in the response text. -/
def jsonLocate (content : List Char) : Option (List Char) :=
  (reSearch jsonObjRe content).map Found.matched

/-- Answer-key lookup keyed by the record's (int-valued) question number. -/
def akLookupInt (m : List (Nat × List Char)) (i : Int) : Option (List Char) :=
  (m.find? (fun pr => (pr.1 : Int) = i)).map Prod.snd

/-- The body of `llm_extract`'s `try` block after the reasoning call
(lines 729-777), as a result: either a finished record or the failure
message of the exception that ends the attempt. `resp` is the reasoning
capability's outcome (`.error` models `llm.invoke` raising); `jsonLoads`
abstracts `json.loads`; `chunk` is the original (unrepaired) chunk used
for question-number recovery. -/
def extractionOutcome (jsonLoads : List Char → Option PyVal)
    (resp : Except (List Char) (List Char)) (chunk : List Char)
    (answerKey : List (Nat × List Char)) (uid : List Char) :
    Except (List Char) QARecord :=
  match resp with
  | .error e => .error e
  | .ok r =>
    let content := pyStrip r
    match jsonLocate content with
    | none => .error (pyStr "No JSON found in LLM response")
    | some jstr =>
      match jsonLoads (cleanJsonString jstr) with
      | none => .error (pyStr "JSON parsing failed")
      | some (.pdict dd) =>
        match qarecordOfDict (validateAndCleanRecord jsonLoads dd uid) with
        | none => .error (pyStr "record construction failed validation")
        | some rec0 =>
          let rec1 :=
            match extractQuestionNumber chunk with
            | some n => if n ≠ 0 then { rec0 with question_number := (n : Int) } else rec0
            | none => rec0
          let rec2 :=
            if answerKey ≠ [] then
              match akLookupInt answerKey rec1.question_number with
              | some letter => { rec1 with correct := some letter }
              | none => rec1
            else rec1
          .ok rec2
      | some _ => .error (pyStr "record construction failed validation")

/-- `llm_extract` (question_ingestion.py lines 576-784) as a state
transformer: rate-limit wait, set `last_request_time` at call-issue time
(line 610, before the `try` block), then run the extraction attempt; on
success append the record, on any failure append one error string; set
`parsing_status` accordingly. `now` is the wall clock at entry
(`time.time()`, line 585); sleeping moves the clock to `now + rateSleep`,
which is the call-issue time. -/
def llm_extract (jsonLoads : List Char → Option PyVal)
    (oracle : List Char → Except (List Char) (List Char)) (now : ℚ)
    (s : PState) : PState :=
  let chunk := s.chunks.getD s.currentChunkIndex []
  let pre := preprocessMathFormatting chunk
  let s1 := { s with lastRequestTime := now + rateSleep s.lastRequestTime now }
  match extractionOutcome jsonLoads (oracle pre) chunk s.answerKey
          (uidFor s.currentChunkIndex) with
  | .ok r => { s1 with parsed := s1.parsed ++ [r], parsingStatus := pyStr "success" }
  | .error e =>
    { s1 with
      errors := s1.errors ++
        [pyStr "LLM extraction failed for chunk " ++ digitsOfNat (s.currentChunkIndex + 1) ++
         ['/'] ++ digitsOfNat s.chunks.length ++ pyStr ": " ++ e],
      parsingStatus := pyStr "failure" }

/-- `llm_fallback` (lines 859-868): record the skip and continue. -/
def llm_fallback (s : PState) : PState :=
  { s with
    errors := s.errors ++
      [pyStr "Skipping chunk " ++ digitsOfNat (s.currentChunkIndex + 1) ++ ['/'] ++
       digitsOfNat s.chunks.length ++ pyStr " due to parsing failure"],
    parsingStatus := pyStr "failure" }

/-- `assemble_json` (lines 870-883): advance the cursor by exactly one. -/
def assemble_json (s : PState) : PState :=
  { s with currentChunkIndex := s.currentChunkIndex + 1 }

/-- `should_continue` (lines 885-892). -/
def shouldContinue (s : PState) : List Char :=
  if s.currentChunkIndex < s.chunks.length then pyStr "continue" else pyStr "end"

/-- One full per-chunk pass of the graph (lines 918-936): `llm_extract`,
then on "success" straight to `assemble_json`, on "failure" through
`llm_fallback` first. -/
def processChunk (jsonLoads : List Char → Option PyVal)
    (oracle : List Char → Except (List Char) (List Char)) (now : ℚ)
    (s : PState) : PState :=
  let s1 := llm_extract jsonLoads oracle now s
  let s2 := if s1.parsingStatus = pyStr "success" then s1 else llm_fallback s1
  assemble_json s2

end SatIngest

namespace SatIngest

theorem dGet_dSet_self (d : PyDict) (k : List Char) (v : PyVal) :
    dGet (dSet d k v) k = some v := by
  induction d with
  | nil => simp [dGet, dSet]
  | cons hd tl ih =>
    by_cases h : hd.1 = k
    · simp [dSet, dGet, h]
    · simp [dSet, dGet, h, ih]

theorem dGet_dSet_ne (d : PyDict) (k k' : List Char) (v : PyVal) (h : k' ≠ k) :
    dGet (dSet d k' v) k = dGet d k := by
  induction d with
  | nil => simp [dGet, dSet, h]
  | cons hd tl ih =>
    by_cases h2 : hd.1 = k'
    · have hk : hd.1 ≠ k := by rw [h2]; exact h
      simp [dSet, dGet, h2, h, hk, Ne.symm h]
    · by_cases h3 : hd.1 = k
      · simp [dSet, dGet, h2, h3, Ne.symm h]
      · simp [dSet, dGet, h2, h3, ih]

theorem akLookup_append (m1 m2 : List (Nat × List Char)) (n : Nat) :
    akLookup (m1 ++ m2) n = (akLookup m1 n).or (akLookup m2 n) := by
  simp [akLookup, List.find?_append]
  cases h : m1.find? (fun pr => pr.1 = n) <;> simp [Option.or]

theorem akLookup_addIfMissing_of_some (m : List (Nat × List Char))
    (pr : Nat × List Char) (n : Nat) (v : List Char) (h : akLookup m n = some v) :
    akLookup (addIfMissing m pr) n = some v := by
  unfold addIfMissing
  by_cases hp : (akLookup m pr.1).isSome
  · simp [hp, h]
  · simp [hp, akLookup_append, h, Option.or]

theorem akLookup_foldl_preserved (ps : List (Nat × List Char))
    (m : List (Nat × List Char)) (n : Nat) (v : List Char)
    (h : akLookup m n = some v) :
    akLookup (ps.foldl addIfMissing m) n = some v := by
  induction ps generalizing m with
  | nil => simpa using h
  | cons pr ps ih =>
    simpa using ih (addIfMissing m pr) (akLookup_addIfMissing_of_some m pr n v h)

theorem optOr_none (o : Option α) : Option.or none o = o := rfl

theorem akLookup_single (pr : Nat × List Char) (n : Nat) :
    akLookup [pr] n = if pr.1 = n then some pr.2 else none := by
  by_cases hn : pr.1 = n <;> simp [akLookup, List.find?, hn]

theorem akLookup_foldl_addIfMissing (ps : List (Nat × List Char))
    (m : List (Nat × List Char)) (n : Nat) :
    akLookup (ps.foldl addIfMissing m) n =
      (akLookup m n).or ((ps.find? (fun pr => pr.1 = n)).map Prod.snd) := by
  induction ps generalizing m with
  | nil =>
    simp only [List.foldl_nil, List.find?_nil, Option.map_none']
    cases h : akLookup m n <;> simp [h, Option.or]
  | cons pr ps ih =>
    simp only [List.foldl_cons]
    rw [ih]
    by_cases hn : pr.1 = n
    · cases hm : akLookup m n with
      | some v =>
        rw [akLookup_addIfMissing_of_some m pr n v hm]
        simp [Option.or]
      | none =>
        have hmiss : akLookup m pr.1 = none := by rw [hn]; exact hm
        have hadd : addIfMissing m pr = m ++ [pr] := by
          simp [addIfMissing, hmiss]
        rw [hadd, akLookup_append, hm, akLookup_single, if_pos hn, optOr_none,
          optOr_none]
        have hfind : (pr :: ps).find? (fun q => q.1 = n) = some pr := by
          simp [List.find?, hn]
        rw [hfind]
        rfl
    · have hstep : akLookup (addIfMissing m pr) n = akLookup m n := by
        unfold addIfMissing
        by_cases hp : (akLookup m pr.1).isSome
        · simp [hp]
        · simp only [hp, Bool.false_eq_true, if_neg, if_false]
          rw [akLookup_append, akLookup_single, if_neg hn]
          cases h : akLookup m n <;> simp [h, Option.or]
      rw [hstep]
      have hfind : (pr :: ps).find? (fun q => q.1 = n) = ps.find? (fun q => q.1 = n) := by
        simp [List.find?, hn]
      rw [hfind]

theorem mem_foldl_addIfMissing (ps : List (Nat × List Char))
    (m : List (Nat × List Char)) (x : Nat × List Char)
    (h : x ∈ ps.foldl addIfMissing m) : x ∈ m ∨ x ∈ ps := by
  induction ps generalizing m with
  | nil => simp only [List.foldl_nil] at h; exact Or.inl h
  | cons pr ps ih =>
    simp only [List.foldl_cons] at h
    rcases ih (addIfMissing m pr) h with h2 | h2
    · unfold addIfMissing at h2
      by_cases hp : (akLookup m pr.1).isSome
      · simp [hp] at h2
        exact Or.inl h2
      · simp [hp] at h2
        rcases h2 with h2 | h2
        · exact Or.inl h2
        · exact Or.inr (by simp [h2])
    · exact Or.inr (by simp [h2])

/-- `re` can consume exactly `cs` (in some context). -/
def Consumes (re : RE) (cs : List Char) : Prop :=
  ∃ fuel prev s r g, (cs, r, g) ∈ mt fuel re prev s

/-- `cs` is a possible capture of group `n` somewhere inside `re`. -/
inductive Produces : RE → Nat → List Char → Prop where
  | seqL {a b : RE} {n cs} : Produces a n cs → Produces (.seq a b) n cs
  | seqR {a b : RE} {n cs} : Produces b n cs → Produces (.seq a b) n cs
  | altL {a b : RE} {n cs} : Produces a n cs → Produces (.alt a b) n cs
  | altR {a b : RE} {n cs} : Produces b n cs → Produces (.alt a b) n cs
  | optP {a : RE} {n cs} : Produces a n cs → Produces (.opt a) n cs
  | starP {a : RE} {n cs} : Produces a n cs → Produces (.star a) n cs
  | selfP {a : RE} {n cs} : Consumes a cs → Produces (.group n a) n cs
  | innerP {a : RE} {m n cs} : Produces a m cs → Produces (.group n a) m cs

/-- Every capture in an `mt` output is produced by the pattern. -/
theorem mtCaps (fuel : Nat) :
    ∀ (re : RE) (prev : Option Char) (s : List Char) (out : MRes),
      out ∈ mt fuel re prev s → ∀ n cs, (n, cs) ∈ out.2.2 → Produces re n cs := by
  induction fuel with
  | zero => intro re prev s out h; simp [mt] at h
  | succ fuel ih =>
    intro re prev s out hout n cs hcs
    cases re with
    | eps => simp [mt] at hout; simp [hout] at hcs
    | cls L =>
      simp only [mt] at hout
      cases s with
      | nil => simp at hout
      | cons c r =>
        by_cases h : L.contains c <;> simp [h] at hout <;> simp [hout] at hcs
    | anyc =>
      simp only [mt] at hout
      cases s with
      | nil => simp at hout
      | cons c r => simp at hout; simp [hout] at hcs
    | seq a b =>
      simp only [mt, List.mem_flatMap, List.mem_map] at hout
      obtain ⟨⟨ca, ra, ga⟩, ha, ⟨cb, rb, gb⟩, hb, hout⟩ := hout
      rw [← hout] at hcs
      simp only [List.mem_append] at hcs
      rcases hcs with hcs | hcs
      · exact Produces.seqL (ih a prev s _ ha n cs hcs)
      · exact Produces.seqR (ih b _ _ _ hb n cs hcs)
    | alt a b =>
      simp only [mt, List.mem_append] at hout
      rcases hout with hout | hout
      · exact Produces.altL (ih a prev s _ hout n cs hcs)
      · exact Produces.altR (ih b prev s _ hout n cs hcs)
    | opt a =>
      simp only [mt, List.mem_append] at hout
      rcases hout with hout | hout
      · exact Produces.optP (ih a prev s _ hout n cs hcs)
      · simp at hout; simp [hout] at hcs
    | star a =>
      simp only [mt, List.mem_append, List.mem_flatMap, List.mem_map] at hout
      rcases hout with ⟨⟨ca, ra, ga⟩, ha, hrest⟩ | hout
      · by_cases he : ca.isEmpty
        · simp [he] at hrest
        · simp only [he, if_neg, Bool.false_eq_true, not_false_eq_true,
            List.mem_map] at hrest
          obtain ⟨⟨cs2, rs2, gs2⟩, hs2, hout⟩ := hrest
          rw [← hout] at hcs
          simp only [List.mem_append] at hcs
          rcases hcs with hcs | hcs
          · exact Produces.starP (ih a prev s _ ha n cs hcs)
          · exact ih (.star a) _ _ _ hs2 n cs hcs
      · simp at hout; simp [hout] at hcs
    | group m a =>
      simp only [mt, List.mem_map] at hout
      obtain ⟨⟨c, r, g⟩, hg, hout⟩ := hout
      rw [← hout] at hcs
      simp only [List.mem_cons] at hcs
      rcases hcs with hcs | hcs
      · obtain ⟨h1, h2⟩ := Prod.mk.injEq .. ▸ hcs
        subst h1
        have : cs = c := by simpa using congrArg Prod.snd hcs
        subst this
        exact Produces.selfP ⟨fuel, prev, s, r, g, hg⟩
      · exact Produces.innerP (ih a prev s _ hg n cs hcs)
    | bol =>
      simp only [mt] at hout
      by_cases h : prev = none ∨ prev = some '\n' <;> simp [h] at hout <;>
        simp [hout] at hcs
    | eol =>
      simp only [mt] at hout
      cases s with
      | nil => simp at hout; simp [hout] at hcs
      | cons c r =>
        by_cases h : c = '\n' <;> simp [h] at hout <;> simp [hout] at hcs
    | wb =>
      simp only [mt] at hout
      by_cases h : wordish prev ≠ wordish s.head? <;> simp [h] at hout <;>
        simp [hout] at hcs

/-- Groups that occur on the mandatory spine of `re` (not under `alt`,
`opt` or `star`), hence capture in every successful match. -/
def mandGroups : RE → List Nat
  | .seq a b => mandGroups a ++ mandGroups b
  | .group m a => m :: mandGroups a
  | _ => []

/-- Every mandatory group has a capture in every `mt` output. -/
theorem mtMand (fuel : Nat) :
    ∀ (re : RE) (prev : Option Char) (s : List Char) (out : MRes),
      out ∈ mt fuel re prev s → ∀ n ∈ mandGroups re, ∃ cs, (n, cs) ∈ out.2.2 := by
  induction fuel with
  | zero => intro re prev s out h; simp [mt] at h
  | succ fuel ih =>
    intro re prev s out hout n hn
    cases re with
    | seq a b =>
      simp only [mt, List.mem_flatMap, List.mem_map] at hout
      obtain ⟨⟨ca, ra, ga⟩, ha, ⟨cb, rb, gb⟩, hb, hout⟩ := hout
      simp only [mandGroups, List.mem_append] at hn
      rcases hn with hn | hn
      · obtain ⟨cs, hcs⟩ := ih a prev s _ ha n hn
        exact ⟨cs, by rw [← hout]; simp [hcs]⟩
      · obtain ⟨cs, hcs⟩ := ih b _ _ _ hb n hn
        exact ⟨cs, by rw [← hout]; simp [hcs]⟩
    | group m a =>
      simp only [mt, List.mem_map] at hout
      obtain ⟨⟨c, r, g⟩, hg, hout⟩ := hout
      simp only [mandGroups, List.mem_cons] at hn
      rcases hn with hn | hn
      · exact ⟨c, by rw [← hout]; simp [hn]⟩
      · obtain ⟨cs, hcs⟩ := ih a prev s _ hg n hn
        exact ⟨cs, by rw [← hout]; simp [hcs]⟩
    | eps => simp [mandGroups] at hn
    | cls L => simp [mandGroups] at hn
    | anyc => simp [mandGroups] at hn
    | alt a b => simp [mandGroups] at hn
    | opt a => simp [mandGroups] at hn
    | star a => simp [mandGroups] at hn
    | bol => simp [mandGroups] at hn
    | eol => simp [mandGroups] at hn
    | wb => simp [mandGroups] at hn

/-- Bodies of occurrences of group `n` inside `re`. -/
def groupBodies : RE → Nat → List RE
  | .seq a b, n => groupBodies a n ++ groupBodies b n
  | .alt a b, n => groupBodies a n ++ groupBodies b n
  | .opt a, n => groupBodies a n
  | .star a, n => groupBodies a n
  | .group m a, n => (if m = n then [a] else []) ++ groupBodies a n
  | _, _ => []

/-- A produced capture for group `n` is consumed by one of the bodies of
group `n`. -/
theorem produces_bodies {re : RE} {n : Nat} {cs : List Char}
    (h : Produces re n cs) : ∃ b ∈ groupBodies re n, Consumes b cs := by
  induction h with
  | seqL _ ih => obtain ⟨b, hb, hc⟩ := ih; exact ⟨b, by simp [groupBodies, hb], hc⟩
  | seqR _ ih => obtain ⟨b, hb, hc⟩ := ih; exact ⟨b, by simp [groupBodies, hb], hc⟩
  | altL _ ih => obtain ⟨b, hb, hc⟩ := ih; exact ⟨b, by simp [groupBodies, hb], hc⟩
  | altR _ ih => obtain ⟨b, hb, hc⟩ := ih; exact ⟨b, by simp [groupBodies, hb], hc⟩
  | optP _ ih => obtain ⟨b, hb, hc⟩ := ih; exact ⟨b, by simp [groupBodies, hb], hc⟩
  | starP _ ih => obtain ⟨b, hb, hc⟩ := ih; exact ⟨b, by simp [groupBodies, hb], hc⟩
  | selfP h => exact ⟨_, by simp [groupBodies], h⟩
  | innerP _ ih => obtain ⟨b, hb, hc⟩ := ih; exact ⟨b, by simp [groupBodies, hb], hc⟩

/-- What a bare character class can consume: exactly one of its chars. -/
theorem consumes_cls {L : List Char} {cs : List Char}
    (h : Consumes (.cls L) cs) : ∃ c ∈ L, cs = [c] := by
  obtain ⟨fuel, prev, s, r, g, hm⟩ := h
  cases fuel with
  | zero => simp [mt] at hm
  | succ fuel =>
    simp only [mt] at hm
    cases s with
    | nil => simp at hm
    | cons c r2 =>
      simp at hm
      exact ⟨c, hm.1, hm.2.1⟩

/-- Every `Found` emitted by the scanner carries captures of some `mt`
output of the same pattern. -/
theorem scanFrom_caps (fuel : Nat) :
    ∀ (re : RE) (prev : Option Char) (s : List Char) (pos : Nat) (f : Found),
      f ∈ scanFrom fuel re prev s pos →
      ∃ prev2 s2 r, (f.matched, r, f.caps) ∈ matchAll re prev2 s2 := by
  induction fuel with
  | zero => intro re prev s pos f h; simp [scanFrom] at h
  | succ fuel ih =>
    intro re prev s pos f h
    simp only [scanFrom] at h
    cases hm : matchFirst re prev s with
    | none =>
      rw [hm] at h
      cases s with
      | nil => simp at h
      | cons x xs => exact ih re (some x) xs (pos + 1) f h
    | some out =>
      obtain ⟨c, r, g⟩ := out
      have hmem : (c, r, g) ∈ matchAll re prev s := by
        unfold matchFirst at hm
        cases hall : matchAll re prev s with
        | nil => rw [hall] at hm; simp at hm
        | cons x xs =>
          rw [hall] at hm
          simp only [List.head?_cons, Option.some.injEq] at hm
          simp [← hm]
      rw [hm] at h
      by_cases he : c.isEmpty
      · simp only [he, if_true, List.mem_cons] at h
        rcases h with rfl | h
        · exact ⟨prev, s, r, hmem⟩
        · cases s with
          | nil => simp at h
          | cons x xs => exact ih re (some x) xs (pos + 1) f h
      · simp only [he, Bool.false_eq_true, if_false, List.mem_cons] at h
        rcases h with rfl | h
        · exact ⟨prev, s, r, hmem⟩
        · exact ih re (lastOr prev c) r (pos + c.length) f h

end SatIngest

namespace SatIngest

/-- All nine patterns `parse_answer_key` draws pairs from. -/
def allAkPatterns : List RE := answerKeyPatterns ++ [tabularPattern]

/-- In each answer-key pattern, group 2 is a mandatory group whose body is
the letter class `[A-Da-d]`. -/
theorem akPatternsSpec :
    ∀ p ∈ allAkPatterns,
      groupBodies p 2 = [.cls (pyStr "ABCDabcd")] ∧ 2 ∈ mandGroups p := by
  decide

/-- Every pair an answer-key pattern contributes has its letter in
{A,B,C,D}: the captured char is one of `[A-Da-d]` and is uppercased. -/
theorem pairsOfPattern_val {p : RE} (hp : p ∈ allAkPatterns) (text : List Char)
    {pr : Nat × List Char} (hpr : pr ∈ pairsOfPattern p text) :
    pr.2 ∈ [pyStr "A", pyStr "B", pyStr "C", pyStr "D"] := by
  have spec := akPatternsSpec p hp
  unfold pairsOfPattern at hpr
  rw [List.mem_filterMap] at hpr
  obtain ⟨f, hf, heq⟩ := hpr
  unfold findIter at hf
  obtain ⟨prev2, s2, r, hmem⟩ := scanFrom_caps _ p none text 0 f hf
  obtain ⟨cs, hcs⟩ := mtMand _ p prev2 s2 (f.matched, r, f.caps) hmem 2 spec.2
  have hsome : (f.caps.find? (fun q => q.1 = 2)).isSome :=
    List.find?_isSome.mpr ⟨(2, cs), hcs, by simp⟩
  obtain ⟨q, hq⟩ := Option.isSome_iff_exists.mp hsome
  have hqmem : q ∈ f.caps := List.mem_of_find?_eq_some hq
  have hq2 : q.1 = 2 := by simpa using List.find?_some hq
  have hprod : Produces p q.1 q.2 :=
    mtCaps _ p prev2 s2 _ hmem q.1 q.2 (by simpa using hqmem)
  rw [hq2] at hprod
  obtain ⟨b, hb, hcons⟩ := produces_bodies hprod
  rw [spec.1] at hb
  simp only [List.mem_singleton] at hb
  subst hb
  obtain ⟨c, hc, hcs2⟩ := consumes_cls hcons
  have hcap2 : capStr f.caps 2 = [c] := by simp [capStr, hq, hcs2]
  cases hd : capStr f.caps 1 with
  | nil => rw [hd] at heq; simp at heq
  | cons d ds =>
    rw [hd] at heq
    have hpr2 : pr.2 = upStr (capStr f.caps 2) := by
      have := heq
      simp only [Option.some.injEq] at this
      rw [← this]
    rw [hpr2, hcap2]
    have : c ∈ pyStr "ABCDabcd" := hc
    simp only [pyStr, String.data] at this
    -- enumerate the eight possible letters
    fin_cases this <;> decide

/-- Membership in the final answer key comes from the primary pattern
family or the tabular pattern. -/
theorem parseAnswerKey_mem {text : List Char} {pr : Nat × List Char}
    (h : pr ∈ parseAnswerKey text) :
    pr ∈ collectedPairs text ∨ pr ∈ pairsOfPattern tabularPattern text := by
  unfold parseAnswerKey at h
  dsimp only at h
  split at h
  · rcases mem_foldl_addIfMissing _ _ _ h with h2 | h2
    · unfold primaryAnswerKey at h2
      rcases mem_foldl_addIfMissing _ _ _ h2 with h3 | h3
      · simp at h3
      · exact Or.inl h3
    · exact Or.inr h2
  · unfold primaryAnswerKey at h
    rcases mem_foldl_addIfMissing _ _ _ h with h2 | h2
    · simp at h2
    · exact Or.inl h2

/-- Every value in any parsed answer key is one of the four letters. -/
theorem answerKey_value_mem {text : List Char} {pr : Nat × List Char}
    (h : pr ∈ parseAnswerKey text) :
    pr.2 ∈ [pyStr "A", pyStr "B", pyStr "C", pyStr "D"] := by
  rcases parseAnswerKey_mem h with h2 | h2
  · unfold collectedPairs at h2
    rw [List.mem_flatMap] at h2
    obtain ⟨p, hp, hpr⟩ := h2
    exact pairsOfPattern_val (by simp [allAkPatterns, hp]) text hpr
  · exact pairsOfPattern_val (by simp [allAkPatterns]) text h2

end SatIngest

namespace SatIngest

/-- Scenario A page text from the spec. -/
def scenarioA : List Char :=
  pyStr "1. What is 2+2?\nA) 3\nB) 4\nC) 5\nD) 6\n2. What is 3+3?\nA) 4\nB) 5\nC) 6\nD) 7"

/-- A candidate with ≥ 100 chars and 4 choice markers that nevertheless
starts with boilerplate ("Directions:"). -/
def c4cex : List Char :=
  pyStr "Directions: choose the best answer for each question in the passage below today.\nA) one  B) two  C) three  D) four"

/-- Scenario C input from the spec and the docstring of
`preprocess_math_formatting`. -/
def c6input : List Char := pyStr "14x = 2 w + 19 7y"

/-- A chunk in which a "Question N" heading (N = 7) textually precedes a
line beginning with a bare numeral (M = 12). -/
def c10chunk : List Char := pyStr "Question 7 asks about speed.\n12. Pick the rate below."

/-- C3 counterexample: on the answer-key text "0. A" the parser produces
the key 0, which is not strictly positive, so not every key is a positive
integer. -/
theorem C3_zero_key_cex :
    parseAnswerKey (pyStr "0. A") = [(0, pyStr "A")] ∧
      ¬ (∀ pr ∈ parseAnswerKey (pyStr "0. A"), 0 < pr.1) := by
  constructor
  · decide
  · decide

/-- C3 (amended): for every answer-key page text, every value in the
resulting AnswerKey is one of the four uppercase letters A, B, C, D; keys
are the nonnegative integers read from digit captures (key 0 is possible,
so keys are not guaranteed strictly positive). -/
theorem C3_answer_key_shape :
    ∀ (text : List Char), ∀ pr ∈ parseAnswerKey text,
      pr.2 ∈ [pyStr "A", pyStr "B", pyStr "C", pyStr "D"] :=
  fun _ _ h => answerKey_value_mem h

/-- Witness for C3: the theorem applied to the concrete text "1. A". -/
theorem C3_answer_key_shape_witness :
    (1, pyStr "A").2 ∈ [pyStr "A", pyStr "B", pyStr "C", pyStr "D"] :=
  C3_answer_key_shape (pyStr "1. A") (1, pyStr "A") (by decide)

/-- C4 counterexample: a candidate with length ≥ 100 and ≥ 3 choice
markers that the validator still rejects, because the boilerplate phrase
"Directions:" occurs in its first 200 characters. -/
theorem C4_boilerplate_cex :
    100 ≤ c4cex.length ∧ 3 ≤ markerCount c4cex ∧
      isValidQuestionChunk c4cex = false := by
  refine ⟨by decide, by decide, by decide⟩

/-- C4 (amended): a candidate with ≥ 3 choice markers and length ≥ 100 is
accepted provided additionally no exclusion (boilerplate) pattern matches
within its first 200 characters; a candidate with fewer than 3 markers is
rejected regardless of its length. -/
theorem C4_validator_acceptance (chunk : List Char) :
    (100 ≤ chunk.length → 3 ≤ markerCount chunk →
      (exclusionPatterns.all fun p => (reSearch p (chunk.take 200)).isNone) = true →
      isValidQuestionChunk chunk = true)
    ∧ (markerCount chunk < 3 → isValidQuestionChunk chunk = false) := by
  constructor
  · intro h1 h2 h3
    have hany : (exclusionPatterns.any fun p => (reSearch p (chunk.take 200)).isSome) = false := by
      rw [List.any_eq_false]
      intro p hp
      have := List.all_eq_true.mp h3 p hp
      simp only [Option.isNone_iff_eq_none] at this
      simp [this]
    unfold isValidQuestionChunk
    rw [if_neg (by omega), if_neg (by omega), hany]
    simp
  · intro h
    unfold isValidQuestionChunk
    by_cases h1 : chunk.length < 100
    · simp [h1]
    · simp [h1, h]

/-- Witness for C4: a clean 131-character candidate with 4 markers is
accepted, and a 2-character candidate without markers is rejected. -/
theorem C4_validator_acceptance_witness :
    isValidQuestionChunk (pyStr "17. If x plus y equals ten and x minus y equals four, which of the following gives the value of x?\nA) five\nB) six\nC) seven\nD) eight") = true
    ∧ isValidQuestionChunk (pyStr "ab") = false :=
  ⟨(C4_validator_acceptance _).1 (by decide) (by decide) (by decide),
   (C4_validator_acceptance _).2 (by decide)⟩

/-- C5 counterexample: on the Scenario A page text the boundary-based
splitter produces no chunks at all (not 2), and the page text as a whole
also fails the validator, so the content-based fallback cannot yield a
chunk either. -/
theorem C5_scenarioA_cex :
    splitByQuestionNumbers scenarioA = [] ∧
      isValidQuestionChunk scenarioA = false := by
  refine ⟨by decide, by decide⟩

/-- C5 (amended): on the Scenario A page text the splitter produces
exactly 0 chunks: of the boundary matches at "1." (position 0) and "2."
(position 36), only the one at position 36 survives the
duplicate-suppression guard (which drops any match starting at a position
below 10), and every candidate — the single boundary chunk as well as any
piece of this 71-character page the content fallback could produce — is
rejected by the validator's 100-character minimum. -/
theorem C5_scenarioA_chunks :
    uniqueStarts scenarioA = [36]
    ∧ splitByQuestionNumbers scenarioA = []
    ∧ (∀ fb : List Char → List (List Char),
        (∀ piece ∈ fb scenarioA, piece.length < 100) →
        pageChunksWith fb scenarioA = []) := by
  refine ⟨by decide, by decide, ?_⟩
  intro fb h
  have h2 : splitByQuestionNumbers scenarioA = [] := by decide
  unfold pageChunksWith splitByContentWith
  rw [h2]
  simp only [List.isEmpty_nil, if_true]
  rw [List.filter_eq_nil_iff]
  intro piece hp
  have hlen := h piece hp
  unfold isValidQuestionChunk
  simp [hlen]

/-- Witness for C5: the fallback clause applied to the splitter that
returns the page whole (what the external recursive splitter does for a
71-character page). -/
theorem C5_scenarioA_chunks_witness :
    pageChunksWith (fun t => [t]) scenarioA = [] :=
  C5_scenarioA_chunks.2.2 (fun t => [t])
    (by intro p hp; simp only [List.mem_singleton] at hp; subst hp; decide)

/-- C6: evaluating the full repair pass at the failing input
"14x = 2 w + 19 7y": the exponent-reassembly pattern
`([a-zA-Z\d\)]+)\s*(\d+)\s*([a-zA-Z\+\-\(\)]*)` fires first and turns
"14x" into "1^4x" and "19 7y" into "19^7y", so the output is
"1^4x = 2w+19^7y" and does NOT contain the substring "19/7y" that the
function's own docstring (and the spec's Scenario C) promise. -/
theorem C6_math_repair_scenario :
    preprocessMathFormatting c6input = pyStr "1^4x = 2w+19^7y"
    ∧ containsSub (preprocessMathFormatting c6input) (pyStr "19/7y") = false := by
  refine ⟨by decide, by decide⟩

/-- C10: the question-number recovery tries its patterns in declared
order: whenever the first pattern (line-anchored bare numeral) matches
anywhere, its capture is the result regardless of the other patterns; on
the concrete chunk where a "Question 7" heading textually precedes a line
beginning with "12.", the recovered number is 12 (pattern order, not
textual position, decides); and when no pattern matches the result is
`none` (so the model-reported number is kept). -/
theorem C10_pattern_order :
    (∀ (text : List Char) (n : Nat),
        searchCapNat (RE.seqs [RE.bol, RE.group 1 D1, RE.opt (RE.ch '.'), WS1]) text = some n →
        extractQuestionNumber text = some n)
    ∧ extractQuestionNumber c10chunk = some 12
    ∧ searchCapNat (RE.seqs [RE.bol, RE.str "Question", WS1, RE.group 1 D1,
        RE.opt (RE.cls (pyStr ":.")), WS1]) c10chunk = some 7
    ∧ extractQuestionNumber (pyStr "no numbers here") = none := by
  refine ⟨?_, by decide, by decide, by decide⟩
  intro text n h
  simp only [extractQuestionNumber, questionBoundaryPatterns, List.foldl_cons,
    List.foldl_nil]
  rw [h]

/-- Witness for C10: the first-pattern clause applied to "3. abc def". -/
theorem C10_pattern_order_witness :
    extractQuestionNumber (pyStr "3. abc def") = some 3 :=
  C10_pattern_order.1 (pyStr "3. abc def") 3 (by decide)

end SatIngest

namespace SatIngest

/-- C7: (a) first-found-wins — for every answer-key text and question
number, the primary pass maps the number to the letter of the first
matching pair collected across all patterns in pattern order then
first-occurrence order; (b) the tabular secondary pass never changes an
existing entry's letter; (c) the secondary pass runs only when fewer than
10 distinct question numbers were recovered (with 10 or more, the final
key is exactly the primary key). -/
theorem C7_dedup_policy :
    (∀ (text : List Char) (n : Nat),
        akLookup (primaryAnswerKey text) n =
          ((collectedPairs text).find? (fun pr => pr.1 = n)).map Prod.snd)
    ∧ (∀ (text : List Char) (n : Nat) (v : List Char),
        akLookup (primaryAnswerKey text) n = some v →
        akLookup (parseAnswerKey text) n = some v)
    ∧ (∀ (text : List Char), ¬ (primaryAnswerKey text).length < 10 →
        parseAnswerKey text = primaryAnswerKey text) := by
  refine ⟨?_, ?_, ?_⟩
  · intro text n
    unfold primaryAnswerKey
    rw [akLookup_foldl_addIfMissing]
    rfl
  · intro text n v h
    unfold parseAnswerKey
    dsimp only
    split
    · exact akLookup_foldl_preserved _ _ _ _ h
    · exact h
  · intro text h
    unfold parseAnswerKey
    dsimp only
    rw [if_neg h]

/-- Witness for C7: on "1. A 1. B" the duplicate for question 1 is
discarded and the first letter survives into the final key; on a text
with 10 distinct entries the tabular pass does not run. -/
theorem C7_dedup_policy_witness :
    akLookup (parseAnswerKey (pyStr "1. A 1. B")) 1 = some (pyStr "A")
    ∧ parseAnswerKey (pyStr "1. A 2. B 3. C 4. D 5. A 6. B 7. C 8. D 9. A 10. B")
        = primaryAnswerKey (pyStr "1. A 2. B 3. C 4. D 5. A 6. B 7. C 8. D 9. A 10. B") :=
  ⟨C7_dedup_policy.2.1 (pyStr "1. A 1. B") 1 (pyStr "A") (by decide),
   C7_dedup_policy.2.2 (pyStr "1. A 2. B 3. C 4. D 5. A 6. B 7. C 8. D 9. A 10. B")
     (by decide)⟩

end SatIngest

namespace SatIngest

theorem validate_get_module (jl : List Char → Option PyVal) (d : PyDict) (uid : List Char) :
    dGet (validateAndCleanRecord jl d uid) (pyStr "module") =
      some (dGetD d (pyStr "module") (.pint 1)) := by
  unfold validateAndCleanRecord
  dsimp only
  rw [dGet_dSet_ne _ (pyStr "module") (pyStr "choices") _ (by decide),
    dGet_dSet_ne _ (pyStr "module") (pyStr "correct") _ (by decide),
    dGet_dSet_ne _ (pyStr "module") (pyStr "stimulus") _ (by decide),
    dGet_dSet_ne _ (pyStr "module") (pyStr "category") _ (by decide),
    dGet_dSet_ne _ (pyStr "module") (pyStr "type") _ (by decide),
    dGet_dSet_ne _ (pyStr "module") (pyStr "section") _ (by decide),
    dGet_dSet_ne _ (pyStr "module") (pyStr "question_number") _ (by decide),
    dGet_dSet_self]
  simp only [dGetD]
  rw [dGet_dSet_ne _ (pyStr "module") (pyStr "id") _ (by decide)]

theorem validate_get_question_number (jl : List Char → Option PyVal) (d : PyDict)
    (uid : List Char) :
    dGet (validateAndCleanRecord jl d uid) (pyStr "question_number") =
      some (dGetD d (pyStr "question_number") (.pint 1)) := by
  unfold validateAndCleanRecord
  dsimp only
  rw [dGet_dSet_ne _ (pyStr "question_number") (pyStr "choices") _ (by decide),
    dGet_dSet_ne _ (pyStr "question_number") (pyStr "correct") _ (by decide),
    dGet_dSet_ne _ (pyStr "question_number") (pyStr "stimulus") _ (by decide),
    dGet_dSet_ne _ (pyStr "question_number") (pyStr "category") _ (by decide),
    dGet_dSet_ne _ (pyStr "question_number") (pyStr "type") _ (by decide),
    dGet_dSet_ne _ (pyStr "question_number") (pyStr "section") _ (by decide),
    dGet_dSet_self]
  simp only [dGetD]
  rw [dGet_dSet_ne _ (pyStr "question_number") (pyStr "module") _ (by decide),
    dGet_dSet_ne _ (pyStr "question_number") (pyStr "id") _ (by decide)]

theorem validate_get_section (jl : List Char → Option PyVal) (d : PyDict) (uid : List Char) :
    dGet (validateAndCleanRecord jl d uid) (pyStr "section") =
      some (dGetD d (pyStr "section") (.pstr (pyStr "Unknown"))) := by
  unfold validateAndCleanRecord
  dsimp only
  rw [dGet_dSet_ne _ (pyStr "section") (pyStr "choices") _ (by decide),
    dGet_dSet_ne _ (pyStr "section") (pyStr "correct") _ (by decide),
    dGet_dSet_ne _ (pyStr "section") (pyStr "stimulus") _ (by decide),
    dGet_dSet_ne _ (pyStr "section") (pyStr "category") _ (by decide),
    dGet_dSet_ne _ (pyStr "section") (pyStr "type") _ (by decide),
    dGet_dSet_self]
  simp only [dGetD]
  rw [dGet_dSet_ne _ (pyStr "section") (pyStr "question_number") _ (by decide),
    dGet_dSet_ne _ (pyStr "section") (pyStr "module") _ (by decide),
    dGet_dSet_ne _ (pyStr "section") (pyStr "id") _ (by decide)]

theorem validate_get_type (jl : List Char → Option PyVal) (d : PyDict) (uid : List Char) :
    dGet (validateAndCleanRecord jl d uid) (pyStr "type") =
      some (dGetD d (pyStr "type") (.pstr (pyStr "MC"))) := by
  unfold validateAndCleanRecord
  dsimp only
  rw [dGet_dSet_ne _ (pyStr "type") (pyStr "choices") _ (by decide),
    dGet_dSet_ne _ (pyStr "type") (pyStr "correct") _ (by decide),
    dGet_dSet_ne _ (pyStr "type") (pyStr "stimulus") _ (by decide),
    dGet_dSet_ne _ (pyStr "type") (pyStr "category") _ (by decide),
    dGet_dSet_self]
  simp only [dGetD]
  rw [dGet_dSet_ne _ (pyStr "type") (pyStr "section") _ (by decide),
    dGet_dSet_ne _ (pyStr "type") (pyStr "question_number") _ (by decide),
    dGet_dSet_ne _ (pyStr "type") (pyStr "module") _ (by decide),
    dGet_dSet_ne _ (pyStr "type") (pyStr "id") _ (by decide)]

theorem validate_get_stimulus (jl : List Char → Option PyVal) (d : PyDict) (uid : List Char) :
    dGet (validateAndCleanRecord jl d uid) (pyStr "stimulus") =
      some (dGetD d (pyStr "stimulus") .pynone) := by
  unfold validateAndCleanRecord
  dsimp only
  rw [dGet_dSet_ne _ (pyStr "stimulus") (pyStr "choices") _ (by decide),
    dGet_dSet_ne _ (pyStr "stimulus") (pyStr "correct") _ (by decide),
    dGet_dSet_self]
  simp only [dGetD]
  rw [dGet_dSet_ne _ (pyStr "stimulus") (pyStr "category") _ (by decide),
    dGet_dSet_ne _ (pyStr "stimulus") (pyStr "type") _ (by decide),
    dGet_dSet_ne _ (pyStr "stimulus") (pyStr "section") _ (by decide),
    dGet_dSet_ne _ (pyStr "stimulus") (pyStr "question_number") _ (by decide),
    dGet_dSet_ne _ (pyStr "stimulus") (pyStr "module") _ (by decide),
    dGet_dSet_ne _ (pyStr "stimulus") (pyStr "id") _ (by decide)]

theorem validate_get_choices (jl : List Char → Option PyVal) (d : PyDict) (uid : List Char) :
    dGet (validateAndCleanRecord jl d uid) (pyStr "choices") =
      some (cleanChoicesVal jl (dGetD d (pyStr "choices") .pynone)) := by
  unfold validateAndCleanRecord
  dsimp only
  rw [dGet_dSet_self]
  simp only [dGetD]
  rw [dGet_dSet_ne _ (pyStr "choices") (pyStr "correct") _ (by decide),
    dGet_dSet_ne _ (pyStr "choices") (pyStr "stimulus") _ (by decide),
    dGet_dSet_ne _ (pyStr "choices") (pyStr "category") _ (by decide),
    dGet_dSet_ne _ (pyStr "choices") (pyStr "type") _ (by decide),
    dGet_dSet_ne _ (pyStr "choices") (pyStr "section") _ (by decide),
    dGet_dSet_ne _ (pyStr "choices") (pyStr "question_number") _ (by decide),
    dGet_dSet_ne _ (pyStr "choices") (pyStr "module") _ (by decide),
    dGet_dSet_ne _ (pyStr "choices") (pyStr "id") _ (by decide)]

end SatIngest

namespace SatIngest

/-- The shapes `choices` can take after validation when the incoming value
was not a string: null, or a dict containing at least the four keys. -/
def choicesShapeOK (v : PyVal) : Prop :=
  v = PyVal.pynone ∨
    ∃ kvs, v = PyVal.pdict kvs ∧
      ∀ k ∈ [pyStr "A", pyStr "B", pyStr "C", pyStr "D"],
        (kvs.any fun p => p.1 = k) = true

/-- Whether a value is a Python string. -/
def isPStr : PyVal → Bool
  | .pstr _ => true
  | _ => false

/-- A json-parser stand-in that always fails (never consulted in the
non-string cases). -/
def jlNone : List Char → Option PyVal := fun _ => none

/-- A five-key choices object: the four expected keys plus "E". -/
def c1five : List (List Char × PyVal) :=
  [(pyStr "A", .pstr (pyStr "1")), (pyStr "B", .pstr (pyStr "2")),
   (pyStr "C", .pstr (pyStr "3")), (pyStr "D", .pstr (pyStr "4")),
   (pyStr "E", .pstr (pyStr "5"))]

/-- A record dictionary whose choices carry the extra key "E". -/
def c1dict : PyDict :=
  [(pyStr "stimulus", .pstr (pyStr "Sample stimulus")),
   (pyStr "choices", .pdict c1five)]

/-- C1 counterexample: a record dictionary whose `choices` has the five
keys A, B, C, D, E passes `validate_and_clean_record` unchanged (the check
only requires the four keys to be present) and constructs a `QARecord`
whose choices key set is A, B, C, D, E — not exactly the four keys
{A,B,C,D}, refuting the claimed invariant. -/
theorem C1_five_key_choices_cex :
    dGet (validateAndCleanRecord jlNone c1dict (pyStr "SAT-Q001")) (pyStr "choices")
        = some (PyVal.pdict c1five)
    ∧ (qarecordOfDict (validateAndCleanRecord jlNone c1dict (pyStr "SAT-Q001"))).map
          QARecord.choices
        = some (some [(pyStr "A", pyStr "1"), (pyStr "B", pyStr "2"),
                      (pyStr "C", pyStr "3"), (pyStr "D", pyStr "4"),
                      (pyStr "E", pyStr "5")])
    ∧ [(pyStr "A", pyStr "1"), (pyStr "B", pyStr "2"), (pyStr "C", pyStr "3"),
       (pyStr "D", pyStr "4"), (pyStr "E", pyStr "5")].map Prod.fst
        ≠ [pyStr "A", pyStr "B", pyStr "C", pyStr "D"] :=
  ⟨rfl, rfl, by decide⟩

/-- C1 (amended): whenever the incoming `choices` value is not a string
(absent, null, a dict, or any other shape), the `choices` field of the
dictionary returned by `validate_and_clean_record` is either null or a
dict containing at least the keys A, B, C, D — possibly with additional
keys, which pass through unchanged; incoming dicts missing any of the
four keys become null. (A string `choices` is JSON-parsed and substituted
without this shape re-validation.) -/
theorem C1_choices_after_validation (jl : List Char → Option PyVal)
    (d : PyDict) (uid : List Char)
    (h : isPStr (dGetD d (pyStr "choices") .pynone) = false) :
    ∃ v, dGet (validateAndCleanRecord jl d uid) (pyStr "choices") = some v
      ∧ choicesShapeOK v := by
  refine ⟨_, validate_get_choices jl d uid, ?_⟩
  cases hv : dGetD d (pyStr "choices") .pynone with
  | pynone => exact Or.inl rfl
  | pstr s => rw [hv] at h; simp [isPStr] at h
  | pint n => exact Or.inl rfl
  | pbool b => exact Or.inl rfl
  | plist xs => exact Or.inl rfl
  | pdict kvs =>
    unfold cleanChoicesVal
    dsimp only
    by_cases hall : ([pyStr "A", pyStr "B", pyStr "C", pyStr "D"]).all
        (fun key => kvs.any fun p => p.1 = key) = true
    · rw [if_pos hall]
      exact Or.inr ⟨kvs, rfl, fun k hk => List.all_eq_true.mp hall k hk⟩
    · rw [if_neg hall]
      exact Or.inl rfl

/-- Witness for C1: the theorem applied to a dictionary whose choices is
an exactly-four-key dict. -/
theorem C1_choices_after_validation_witness :
    ∃ v, dGet (validateAndCleanRecord jlNone
          [(pyStr "stimulus", .pstr (pyStr "Sample stimulus")),
           (pyStr "choices", .pdict [(pyStr "A", .pstr (pyStr "1")),
             (pyStr "B", .pstr (pyStr "2")), (pyStr "C", .pstr (pyStr "3")),
             (pyStr "D", .pstr (pyStr "4"))])] (pyStr "SAT-Q001"))
          (pyStr "choices") = some v
      ∧ choicesShapeOK v :=
  C1_choices_after_validation jlNone
    [(pyStr "stimulus", .pstr (pyStr "Sample stimulus")),
     (pyStr "choices", .pdict [(pyStr "A", .pstr (pyStr "1")),
       (pyStr "B", .pstr (pyStr "2")), (pyStr "C", .pstr (pyStr "3")),
       (pyStr "D", .pstr (pyStr "4"))])] (pyStr "SAT-Q001") rfl

/-- Construction fails whenever the (validated) dictionary's stimulus is
null: `stimulus` is a required non-optional `str`. -/
theorem qarecord_none_of_stimulus {dd : PyDict}
    (h : dGetD dd (pyStr "stimulus") .pynone = .pynone) :
    qarecordOfDict dd = none := by
  have hs : asStr (dGetD dd (pyStr "stimulus") .pynone) = none := by rw [h]; rfl
  unfold qarecordOfDict
  cases h1 : asStr (dGetD dd (pyStr "id") .pynone) with
  | none => simp [h1]
  | some a =>
    cases h2 : asInt (dGetD dd (pyStr "module") .pynone) with
    | none => simp [h1, h2]
    | some b =>
      cases h3 : asInt (dGetD dd (pyStr "question_number") .pynone) with
      | none => simp [h1, h2, h3]
      | some c =>
        cases h4 : asStr (dGetD dd (pyStr "section") .pynone) with
        | none => simp [h1, h2, h3, h4]
        | some e =>
          cases h5 : asStr (dGetD dd (pyStr "type") .pynone) with
          | none => simp [h1, h2, h3, h4, h5]
          | some f =>
            cases h6 : asOptStr (dGetD dd (pyStr "category") .pynone) with
            | none => simp [h1, h2, h3, h4, h5, h6]
            | some g => simp [h1, h2, h3, h4, h5, h6, hs]

/-- Record construction after validation fails whenever the raw
dictionary's stimulus is absent or null. -/
theorem validate_stimulus_none (jl : List Char → Option PyVal) (d : PyDict)
    (uid : List Char) (h : dGetD d (pyStr "stimulus") .pynone = .pynone) :
    qarecordOfDict (validateAndCleanRecord jl d uid) = none := by
  apply qarecord_none_of_stimulus
  unfold dGetD
  rw [validate_get_stimulus, h]
  rfl

/-- A json-parser stand-in mapping the two-character object text to the
empty JSON object. -/
def jlEmptyObj : List Char → Option PyVal :=
  fun s => if s = pyStr "\x7b\x7d" then some (.pdict []) else none

/-- C9: a response whose JSON object has an absent or null `stimulus`
fails `QARecord` construction after `validate_and_clean_record` (stimulus
is a required non-optional string) and the chunk is classified as an
extraction failure, whereas absent `module`, `question_number`, `section`
and `type` are defaulted to 1, 1, "Unknown" and "MC" and never by
themselves cause construction to fail. -/
theorem C9_stimulus_requirement :
    (∀ (jl : List Char → Option PyVal) (d : PyDict) (uid : List Char),
        dGetD d (pyStr "stimulus") .pynone = .pynone →
        qarecordOfDict (validateAndCleanRecord jl d uid) = none)
    ∧ (∀ (jl : List Char → Option PyVal) (d : PyDict) (uid : List Char),
        (dGet d (pyStr "module") = none →
          dGet (validateAndCleanRecord jl d uid) (pyStr "module") = some (.pint 1))
      ∧ (dGet d (pyStr "question_number") = none →
          dGet (validateAndCleanRecord jl d uid) (pyStr "question_number")
            = some (.pint 1))
      ∧ (dGet d (pyStr "section") = none →
          dGet (validateAndCleanRecord jl d uid) (pyStr "section")
            = some (.pstr (pyStr "Unknown")))
      ∧ (dGet d (pyStr "type") = none →
          dGet (validateAndCleanRecord jl d uid) (pyStr "type")
            = some (.pstr (pyStr "MC"))))
    ∧ qarecordOfDict (validateAndCleanRecord jlNone
          [(pyStr "stimulus", PyVal.pstr (pyStr "What is 2+2?"))] (pyStr "SAT-Q001"))
        = some { id := pyStr "SAT-Q001", module := 1, question_number := 1,
                 sect := pyStr "Unknown", type := pyStr "MC", category := none,
                 stimulus := pyStr "What is 2+2?", choices := none, correct := none }
    ∧ (∀ (jl : List Char → Option PyVal) (resp chunk uid : List Char)
          (ak : List (Nat × List Char)) (j : List Char) (dd : PyDict),
        jsonLocate (pyStrip resp) = some j →
        jl (cleanJsonString j) = some (.pdict dd) →
        dGetD dd (pyStr "stimulus") .pynone = .pynone →
        extractionOutcome jl (.ok resp) chunk ak uid
          = .error (pyStr "record construction failed validation")) := by
  refine ⟨validate_stimulus_none, ?_, rfl, ?_⟩
  · intro jl d uid
    refine ⟨?_, ?_, ?_, ?_⟩
    · intro h
      rw [validate_get_module]
      unfold dGetD
      rw [h]
      rfl
    · intro h
      rw [validate_get_question_number]
      unfold dGetD
      rw [h]
      rfl
    · intro h
      rw [validate_get_section]
      unfold dGetD
      rw [h]
      rfl
    · intro h
      rw [validate_get_type]
      unfold dGetD
      rw [h]
      rfl
  · intro jl resp chunk uid ak j dd h1 h2 h3
    unfold extractionOutcome
    simp only [h1, h2, validate_stimulus_none jl dd uid h3]

/-- Witness for C9: the clauses applied at concrete inputs — the empty
raw dictionary, and a response text consisting of an empty JSON object. -/
theorem C9_stimulus_requirement_witness :
    qarecordOfDict (validateAndCleanRecord jlNone [] (pyStr "SAT-Q001")) = none
    ∧ dGet (validateAndCleanRecord jlNone [] (pyStr "SAT-Q001")) (pyStr "module")
        = some (.pint 1)
    ∧ extractionOutcome jlEmptyObj (.ok (pyStr "\x7b\x7d")) [] [] (pyStr "SAT-Q001")
        = .error (pyStr "record construction failed validation") :=
  ⟨C9_stimulus_requirement.1 jlNone [] (pyStr "SAT-Q001") rfl,
   (C9_stimulus_requirement.2.1 jlNone [] (pyStr "SAT-Q001")).1 rfl,
   C9_stimulus_requirement.2.2.2 jlEmptyObj (pyStr "\x7b\x7d") [] (pyStr "SAT-Q001")
     [] (pyStr "\x7b\x7d") [] rfl rfl rfl⟩

end SatIngest

namespace SatIngest

/-- A small mid-pipeline state: one chunk, no accumulated results. -/
def s0 : PState :=
  { rawPages := [], answerPages := [], chunks := [pyStr "x"], parsed := [],
    errors := [], currentChunkIndex := 0, parsingStatus := pyStr "",
    answerKey := [], lastRequestTime := 0 }

/-- A reasoning-capability stand-in that always raises. -/
def oracleFail : List Char → Except (List Char) (List Char) :=
  fun _ => .error (pyStr "boom")

/-- C2 counterexample: a failing chunk appends TWO error strings, not
exactly one — `llm_extract` records the failure and `llm_fallback` then
records the skip. -/
theorem C2_two_errors_cex :
    s0.errors = []
    ∧ (processChunk jlNone oracleFail 0 s0).errors.length = 2
    ∧ (processChunk jlNone oracleFail 0 s0).parsed = [] :=
  ⟨rfl, rfl, rfl⟩

/-- C2 (amended): for every chunk whose extraction fails (no JSON object,
JSON parse error, record-construction failure, or an exception from the
reasoning call — all the `.error` outcomes), the per-chunk pass appends no
record, appends exactly TWO error strings (one from the extractor, one
from the fallback handler), still advances the rate-limiter timestamp to
the call-issue time, and increments the cursor by exactly one, so
processing continues with the next chunk and the failed chunk is never
retried. -/
theorem C2_failed_chunk_effects (jl : List Char → Option PyVal)
    (oracle : List Char → Except (List Char) (List Char)) (now : ℚ) (s : PState)
    (h : ∃ e, extractionOutcome jl
        (oracle (preprocessMathFormatting (s.chunks.getD s.currentChunkIndex [])))
        (s.chunks.getD s.currentChunkIndex []) s.answerKey
        (uidFor s.currentChunkIndex) = .error e) :
    (processChunk jl oracle now s).parsed = s.parsed
    ∧ (processChunk jl oracle now s).errors.length = s.errors.length + 2
    ∧ (processChunk jl oracle now s).lastRequestTime
        = now + rateSleep s.lastRequestTime now
    ∧ (processChunk jl oracle now s).currentChunkIndex = s.currentChunkIndex + 1 := by
  obtain ⟨e, he⟩ := h
  unfold processChunk llm_extract
  dsimp only
  rw [he]
  dsimp only
  rw [if_neg (by decide)]
  unfold llm_fallback assemble_json
  refine ⟨rfl, ?_, rfl, rfl⟩
  simp

/-- Witness for C2: the theorem applied to the one-chunk state with a
raising reasoning call. -/
theorem C2_failed_chunk_effects_witness :
    (processChunk jlNone oracleFail 0 s0).parsed = s0.parsed
    ∧ (processChunk jlNone oracleFail 0 s0).errors.length = s0.errors.length + 2
    ∧ (processChunk jlNone oracleFail 0 s0).lastRequestTime
        = 0 + rateSleep s0.lastRequestTime 0
    ∧ (processChunk jlNone oracleFail 0 s0).currentChunkIndex
        = s0.currentChunkIndex + 1 :=
  C2_failed_chunk_effects jlNone oracleFail 0 s0 ⟨pyStr "boom", rfl⟩

/-- C8: (a) when the elapsed time since the last request is below the
configured delay, the sleep is exactly the remaining difference;
(b) `llm_extract` sets the last-request timestamp to the call-issue time
(entry clock plus sleep) and this value is independent of the reasoning
call's outcome — it is recorded before the call, not at completion;
(c) consequently, for a sequence of attempts each issued at or after the
previous issue time, the issue times advance by at least the delay per
attempt: N sequential attempts span at least (N−1)·delay. -/
theorem C8_rate_limiter_contract :
    (∀ last now : ℚ, now - last < RATE_LIMIT_DELAY →
        rateSleep last now = RATE_LIMIT_DELAY - (now - last))
    ∧ (∀ (jl : List Char → Option PyVal)
         (o1 o2 : List Char → Except (List Char) (List Char)) (now : ℚ) (s : PState),
        (llm_extract jl o1 now s).lastRequestTime
            = now + rateSleep s.lastRequestTime now
        ∧ (llm_extract jl o1 now s).lastRequestTime
            = (llm_extract jl o2 now s).lastRequestTime)
    ∧ (∀ (t0 : ℚ) (nows : List ℚ),
        t0 + nows.length * RATE_LIMIT_DELAY ≤
          nows.foldl (fun t n => n + rateSleep t n) t0) := by
  have key : ∀ (jl : List Char → Option PyVal)
      (o : List Char → Except (List Char) (List Char)) (now : ℚ) (s : PState),
      (llm_extract jl o now s).lastRequestTime
        = now + rateSleep s.lastRequestTime now := by
    intro jl o now s
    unfold llm_extract
    dsimp only
    cases extractionOutcome jl
        (o (preprocessMathFormatting (s.chunks.getD s.currentChunkIndex [])))
        (s.chunks.getD s.currentChunkIndex []) s.answerKey
        (uidFor s.currentChunkIndex) with
    | ok r => rfl
    | error e => rfl
  refine ⟨?_, ?_, ?_⟩
  · intro last now h
    unfold rateSleep
    rw [if_pos h]
  · intro jl o1 o2 now s
    exact ⟨key jl o1 now s, (key jl o1 now s).trans (key jl o2 now s).symm⟩
  · intro t0 nows
    have step : ∀ (t n : ℚ), t + RATE_LIMIT_DELAY ≤ n + rateSleep t n := by
      intro t n
      unfold rateSleep
      by_cases h : n - t < RATE_LIMIT_DELAY
      · rw [if_pos h]; linarith
      · rw [if_neg h]; linarith [not_lt.mp h]
    induction nows generalizing t0 with
    | nil => simp
    | cons n ns ih =>
      simp only [List.foldl_cons, List.length_cons]
      calc t0 + ((ns.length + 1 : ℕ) : ℚ) * RATE_LIMIT_DELAY
          = (t0 + RATE_LIMIT_DELAY) + (ns.length : ℚ) * RATE_LIMIT_DELAY := by
            push_cast; ring
        _ ≤ (n + rateSleep t0 n) + (ns.length : ℚ) * RATE_LIMIT_DELAY := by
            linarith [step t0 n]
        _ ≤ ns.foldl (fun t m => m + rateSleep t m) (n + rateSleep t0 n) :=
            ih (n + rateSleep t0 n)

/-- Witness for C8: the sleep clause at last = 0, now = 1 (elapsed 1 s is
below the 4.5 s delay), and the issue-time clause at the sample state. -/
theorem C8_rate_limiter_contract_witness :
    rateSleep 0 1 = RATE_LIMIT_DELAY - (1 - 0)
    ∧ (llm_extract jlNone oracleFail 0 s0).lastRequestTime
        = 0 + rateSleep s0.lastRequestTime 0 :=
  ⟨C8_rate_limiter_contract.1 0 1 (by norm_num [RATE_LIMIT_DELAY]),
   (C8_rate_limiter_contract.2.1 jlNone oracleFail oracleFail 0 s0).1⟩

end SatIngest
